import Mathlib

/-! # nanosg: scene-graph matrices, nodes and scenes

A shallow embedding of `examples/nanosg/nanosg.h` in exact arithmetic: the
element type `T` of the templates is taken to be `ℚ`, so every finite `float`
or `double` value is representable and no rounding takes place.

* `T m[4][4]` is a function `Fin 4 → Fin 4 → ℚ`, indexed `m i j` for `m[i][j]`.
* `T v[3]` is a function `Fin 3 → ℚ`.
* functions that write through an output parameter return the written value;
  member functions that mutate `*this` map the old object to the new one.
* division is that of `ℚ`, in which `1 / 0 = 0`; every statement about
  `Inverse` below is made where the divisor is non-zero.

The statements over `ℚ` are statements in exact arithmetic. To see what the
program does on `Matrixd`, the same functions are also given with the element
type as a parameter (`Tmpl`) and evaluated at `Dbl`, a model of the IEEE 754
binary64 format with rounding to nearest, overflow to infinity and NaN.
-/

namespace nanosg

/-- A `T m[4][4]` array. -/
abbrev Mat4 := Fin 4 → Fin 4 → ℚ

/-- A `T v[3]` array. -/
abbrev Vec3 := Fin 3 → ℚ

/-- Library function `std::min(a, b)`: returns `b` when `b < a`, otherwise `a`. -/
def stdMin (a b : ℚ) : ℚ := if b < a then b else a

/-- Library function `std::max(a, b)`: returns `b` when `a < b`, otherwise `a`. -/
def stdMax (a b : ℚ) : ℚ := if a < b then b else a

namespace Matrix

/-- Function `Matrix<T>::Identity`. -/
def Identity : Mat4 :=
  ![![1, 0, 0, 0],
    ![0, 1, 0, 0],
    ![0, 0, 1, 0],
    ![0, 0, 0, 1]]

/-- Function `Matrix<T>::Copy`: the destination receives all 16 components of `src`. -/
def Copy (src : Mat4) : Mat4 := src

/-- The first stage of `Matrix<T>::Inverse` (lines 102-171), statement by
statement: the contents of `m` once all sixteen cofactor entries have been
stored and before the determinant is formed. The arrays `tsrc[16]` and
`tmp[12]` are unrolled into scalars `tsrcK` and `tmpK`; the second filling of
`tmp` is written `tmpK'`. Each entry `cIJ` is the value of `m[I][J]` after its
two assignments (`=` then `-=`). -/
def InverseCofactors (m : Mat4) : Mat4 :=
  /- transpose matrix -/
  let tsrc0 := m 0 0
  let tsrc1 := m 1 0
  let tsrc2 := m 2 0
  let tsrc3 := m 3 0
  let tsrc4 := m 0 1
  let tsrc5 := m 1 1
  let tsrc6 := m 2 1
  let tsrc7 := m 3 1
  let tsrc8 := m 0 2
  let tsrc9 := m 1 2
  let tsrc10 := m 2 2
  let tsrc11 := m 3 2
  let tsrc12 := m 0 3
  let tsrc13 := m 1 3
  let tsrc14 := m 2 3
  let tsrc15 := m 3 3
  /- calculate pair for first 8 elements(cofactors) -/
  let tmp0 := tsrc10 * tsrc15
  let tmp1 := tsrc11 * tsrc14
  let tmp2 := tsrc9 * tsrc15
  let tmp3 := tsrc11 * tsrc13
  let tmp4 := tsrc9 * tsrc14
  let tmp5 := tsrc10 * tsrc13
  let tmp6 := tsrc8 * tsrc15
  let tmp7 := tsrc11 * tsrc12
  let tmp8 := tsrc8 * tsrc14
  let tmp9 := tsrc10 * tsrc12
  let tmp10 := tsrc8 * tsrc13
  let tmp11 := tsrc9 * tsrc12
  /- calculate first 8 elements(cofactors) -/
  let c00 := (tmp0 * tsrc5 + tmp3 * tsrc6 + tmp4 * tsrc7)
    - (tmp1 * tsrc5 + tmp2 * tsrc6 + tmp5 * tsrc7)
  let c01 := (tmp1 * tsrc4 + tmp6 * tsrc6 + tmp9 * tsrc7)
    - (tmp0 * tsrc4 + tmp7 * tsrc6 + tmp8 * tsrc7)
  let c02 := (tmp2 * tsrc4 + tmp7 * tsrc5 + tmp10 * tsrc7)
    - (tmp3 * tsrc4 + tmp6 * tsrc5 + tmp11 * tsrc7)
  let c03 := (tmp5 * tsrc4 + tmp8 * tsrc5 + tmp11 * tsrc6)
    - (tmp4 * tsrc4 + tmp9 * tsrc5 + tmp10 * tsrc6)
  let c10 := (tmp1 * tsrc1 + tmp2 * tsrc2 + tmp5 * tsrc3)
    - (tmp0 * tsrc1 + tmp3 * tsrc2 + tmp4 * tsrc3)
  let c11 := (tmp0 * tsrc0 + tmp7 * tsrc2 + tmp8 * tsrc3)
    - (tmp1 * tsrc0 + tmp6 * tsrc2 + tmp9 * tsrc3)
  let c12 := (tmp3 * tsrc0 + tmp6 * tsrc1 + tmp11 * tsrc3)
    - (tmp2 * tsrc0 + tmp7 * tsrc1 + tmp10 * tsrc3)
  let c13 := (tmp4 * tsrc0 + tmp9 * tsrc1 + tmp10 * tsrc2)
    - (tmp5 * tsrc0 + tmp8 * tsrc1 + tmp11 * tsrc2)
  /- calculate pairs for second 8 elements(cofactors) -/
  let tmp0' := tsrc2 * tsrc7
  let tmp1' := tsrc3 * tsrc6
  let tmp2' := tsrc1 * tsrc7
  let tmp3' := tsrc3 * tsrc5
  let tmp4' := tsrc1 * tsrc6
  let tmp5' := tsrc2 * tsrc5
  let tmp6' := tsrc0 * tsrc7
  let tmp7' := tsrc3 * tsrc4
  let tmp8' := tsrc0 * tsrc6
  let tmp9' := tsrc2 * tsrc4
  let tmp10' := tsrc0 * tsrc5
  let tmp11' := tsrc1 * tsrc4
  /- calculate second 8 elements(cofactors) -/
  let c20 := (tmp0' * tsrc13 + tmp3' * tsrc14 + tmp4' * tsrc15)
    - (tmp1' * tsrc13 + tmp2' * tsrc14 + tmp5' * tsrc15)
  let c21 := (tmp1' * tsrc12 + tmp6' * tsrc14 + tmp9' * tsrc15)
    - (tmp0' * tsrc12 + tmp7' * tsrc14 + tmp8' * tsrc15)
  let c22 := (tmp2' * tsrc12 + tmp7' * tsrc13 + tmp10' * tsrc15)
    - (tmp3' * tsrc12 + tmp6' * tsrc13 + tmp11' * tsrc15)
  let c23 := (tmp5' * tsrc12 + tmp8' * tsrc13 + tmp11' * tsrc14)
    - (tmp4' * tsrc12 + tmp9' * tsrc13 + tmp10' * tsrc14)
  let c30 := (tmp2' * tsrc10 + tmp5' * tsrc11 + tmp1' * tsrc9)
    - (tmp4' * tsrc11 + tmp0' * tsrc9 + tmp3' * tsrc10)
  let c31 := (tmp8' * tsrc11 + tmp0' * tsrc8 + tmp7' * tsrc10)
    - (tmp6' * tsrc10 + tmp9' * tsrc11 + tmp1' * tsrc8)
  let c32 := (tmp6' * tsrc9 + tmp11' * tsrc11 + tmp3' * tsrc8)
    - (tmp10' * tsrc11 + tmp2' * tsrc8 + tmp7' * tsrc9)
  let c33 := (tmp10' * tsrc10 + tmp4' * tsrc8 + tmp9' * tsrc9)
    - (tmp8' * tsrc9 + tmp11' * tsrc0 + tmp5' * tsrc8)
  ![![c00, c01, c02, c03],
    ![c10, c11, c12, c13],
    ![c20, c21, c22, c23],
    ![c30, c31, c32, c33]]

/-- The value of `det` in `Matrix<T>::Inverse` after line 174: `tsrc[0..3]` hold
`m[0][0]`, `m[1][0]`, `m[2][0]`, `m[3][0]` of the input, and `m[0][0..3]` are
read from the matrix in which the cofactors have already been stored. -/
def InverseDet (m : Mat4) : ℚ :=
  let tsrc0 := m 0 0
  let tsrc1 := m 1 0
  let tsrc2 := m 2 0
  let tsrc3 := m 3 0
  let c := InverseCofactors m
  tsrc0 * c 0 0 + tsrc1 * c 0 1 + tsrc2 * c 0 2 + tsrc3 * c 0 3

/-- Function `Matrix<T>::Inverse`: the cofactor stage, then `det = 1.0 / det` and the
final double loop `m[j][i] *= det`. -/
def Inverse (m : Mat4) : Mat4 :=
  let c := InverseCofactors m
  let det := InverseDet m
  let det := 1 / det
  fun j i => c j i * det

/-- Function `Matrix<T>::Transpose`: the temporary `t[j][i] = m[i][j]` is filled from the
original `m` and then copied back. -/
def Transpose (m : Mat4) : Mat4 :=
  let t : Mat4 := fun j i => m i j
  fun j i => t j i

/-- Function `Matrix<T>::Mult`: `dst[i][j]` starts at `0` and accumulates
`m0[k][j] * m1[i][k]` for `k = 0, 1, 2, 3` in that order. -/
def Mult (m0 m1 : Mat4) : Mat4 :=
  fun i j => (List.finRange 4).foldl (fun acc k => acc + m0 k j * m1 i k) 0

/-- Function `Matrix<T>::MultV`. -/
def MultV (m : Mat4) (v : Vec3) : Vec3 :=
  let tmp0 := m 0 0 * v 0 + m 1 0 * v 1 + m 2 0 * v 2 + m 3 0
  let tmp1 := m 0 1 * v 0 + m 1 1 * v 1 + m 2 1 * v 2 + m 3 1
  let tmp2 := m 0 2 * v 0 + m 1 2 * v 1 + m 2 2 * v 2 + m 3 2
  ![tmp0, tmp1, tmp2]

end Matrix

/-- Function `XformBoundingBox`: the pair `(xbmin, xbmax)` written through the two output
parameters. `b` holds the eight corners in the order of lines 240-264, `xb`
their images under `MultV`; both outputs start at `xb[0]` and the loop runs
over `i = 1, ..., 7`. -/
def XformBoundingBox (bmin bmax : Vec3) (m : Mat4) : Vec3 × Vec3 :=
  let b : Fin 8 → Vec3 :=
    ![![bmin 0, bmin 1, bmin 2],
      ![bmax 0, bmin 1, bmin 2],
      ![bmin 0, bmax 1, bmin 2],
      ![bmax 0, bmax 1, bmin 2],
      ![bmin 0, bmin 1, bmax 2],
      ![bmax 0, bmin 1, bmax 2],
      ![bmin 0, bmax 1, bmax 2],
      ![bmax 0, bmax 1, bmax 2]]
  let xb : Fin 8 → Vec3 := fun i => Matrix.MultV m (b i)
  let xbmin : Vec3 := ![xb 0 0, xb 0 1, xb 0 2]
  let xbmax : Vec3 := ![xb 0 0, xb 0 1, xb 0 2]
  ([1, 2, 3, 4, 5, 6, 7] : List (Fin 8)).foldl
    (fun acc i =>
      (![stdMin (xb i 0) (acc.1 0), stdMin (xb i 1) (acc.1 1), stdMin (xb i 2) (acc.1 2)],
       ![stdMax (xb i 0) (acc.2 0), stdMax (xb i 1) (acc.2 1), stdMax (xb i 2) (acc.2 2)]))
    (xbmin, xbmax)

/-- Modelled from the spec: `nanort::BVHNode<T>` is declared in `nanort.h`, which
is not among the translated sources; a bounding-volume record exposes at
minimum a min/max 3D extent, the two members `bmin[3]` and `bmax[3]` that
`Node` reads. -/
structure BVHNode where
  bmin : Vec3
  bmax : Vec3

/-- The data members of `Node<T>`; the two references to externally owned
vectors are held as the lists they refer to. -/
structure Node where
  lbmin_ : Vec3
  lbmax_ : Vec3
  xbmin_ : Vec3
  xbmax_ : Vec3
  xform_ : Mat4
  inv_xform_ : Mat4
  inv_xform33_ : Mat4
  inv_transpose_xform33_ : Mat4
  bvh_nodes_ : List BVHNode
  bvh_indices_ : List Nat

/-- The assignment `m[i][j] = x` to one entry of a 4x4 array. -/
def setEntry (m : Mat4) (i j : Fin 4) (x : ℚ) : Mat4 :=
  fun a b => if a = i ∧ b = j then x else m a b

namespace Node

/-- The constructor `Node<T>::Node`. `tmax` stands for
`std::numeric_limits<T>::max()`, the largest finite value of `T`. -/
def ctor (tmax : ℚ) (bvh_nodes : List BVHNode) (bvh_indices : List Nat) : Node :=
  let xbmin : Vec3 := ![tmax, tmax, tmax]
  let xbmax : Vec3 := ![-tmax, -tmax, -tmax]
  let lbmin : Vec3 := ![tmax, tmax, tmax]
  let lbmax : Vec3 := ![-tmax, -tmax, -tmax]
  let xform := Matrix.Identity
  let inv_xform := Matrix.Identity
  let inv_xform33 := setEntry Matrix.Identity 3 3 0
  let inv_transpose_xform33 := setEntry Matrix.Identity 3 3 0
  let lb : Vec3 × Vec3 :=
    match bvh_nodes with
    | [] => (lbmin, lbmax)
    | n0 :: _ => (![n0.bmin 0, n0.bmin 1, n0.bmin 2], ![n0.bmax 0, n0.bmax 1, n0.bmax 2])
  { lbmin_ := lb.1, lbmax_ := lb.2, xbmin_ := xbmin, xbmax_ := xbmax,
    xform_ := xform, inv_xform_ := inv_xform, inv_xform33_ := inv_xform33,
    inv_transpose_xform33_ := inv_transpose_xform33,
    bvh_nodes_ := bvh_nodes, bvh_indices_ := bvh_indices }

/-- Function `Node<T>::Update`: returns at once when `bvh_nodes_` is empty; otherwise
recomputes the world box and the three cached matrices from `lbmin_`,
`lbmax_` and `xform_`. -/
def Update (n : Node) : Node :=
  if n.bvh_nodes_.isEmpty then n
  else
    /- Compute the bounding box in world coordinate. -/
    let xb := XformBoundingBox n.lbmin_ n.lbmax_ n.xform_
    /- Inverse(xform) -/
    let inv_xform := Matrix.Copy n.xform_
    let inv_xform := Matrix.Inverse inv_xform
    /- Clear translation, then inverse(xform) -/
    let inv_xform33 := Matrix.Copy n.xform_
    let inv_xform33 := setEntry inv_xform33 3 0 0
    let inv_xform33 := setEntry inv_xform33 3 1 0
    let inv_xform33 := setEntry inv_xform33 3 2 0
    let inv_xform33 := Matrix.Inverse inv_xform33
    /- Inverse transpose of xform33 -/
    let inv_transpose_xform33 := Matrix.Copy inv_xform33
    let inv_transpose_xform33 := Matrix.Transpose inv_transpose_xform33
    { n with
      xbmin_ := xb.1, xbmax_ := xb.2, inv_xform_ := inv_xform,
      inv_xform33_ := inv_xform33, inv_transpose_xform33_ := inv_transpose_xform33 }

/-- Function `Node<T>::GetWorldBoundingBox`: the pair `(bmin, bmax)` written through the
output parameters. -/
def GetWorldBoundingBox (n : Node) : Vec3 × Vec3 :=
  (![n.xbmin_ 0, n.xbmin_ 1, n.xbmin_ 2], ![n.xbmax_ 0, n.xbmax_ 1, n.xbmax_ 2])

/-- Function `Node<T>::GetLocalBoundingBox`: the pair `(bmin, bmax)` written through the
output parameters. -/
def GetLocalBoundingBox (n : Node) : Vec3 × Vec3 :=
  (![n.lbmin_ 0, n.lbmin_ 1, n.lbmin_ 2], ![n.lbmax_ 0, n.lbmax_ 1, n.lbmax_ 2])

end Node

/-- The data members of `Scene<T, P, Pred, I>`. -/
structure Scene where
  bmin_ : Vec3
  bmax_ : Vec3
  nodes_ : List Node

namespace Scene

/-- Function `Scene::AddNode`: `nodes_.push_back(node)`. -/
def AddNode (s : Scene) (node : Node) : Scene :=
  { s with nodes_ := s.nodes_ ++ [node] }

/-- One pass of the second loop of `Scene::Commit` (lines 420-426) for the node
`nodes_[i]`. `Node` declares no member `bmin` or `bmax`; `nodes_[i].bmin` and
`nodes_[i].bmax` are read as the node's world box `xbmin_`, `xbmax_`. -/
def CommitStep (acc : Vec3 × Vec3) (n : Node) : Vec3 × Vec3 :=
  (![stdMin (acc.1 0) (n.xbmin_ 0), stdMin (acc.1 1) (n.xbmin_ 1), stdMin (acc.1 2) (n.xbmin_ 2)],
   ![stdMax (acc.2 0) (n.xbmax_ 0), stdMax (acc.2 1) (n.xbmax_ 1), stdMax (acc.2 2) (n.xbmax_ 2)])

/-- Function `Scene::Commit`: the first loop calls `Update` on every node in order, the
second folds every node's box into `bmin_`, `bmax_`, which are not reset
beforehand. The returned `bool` is the constant `false` and is left out. -/
def Commit (s : Scene) : Scene :=
  /- Update nodes. -/
  let nodes := s.nodes_.map Node.Update
  /- Update scene bounding box. -/
  let bb := nodes.foldl CommitStep (s.bmin_, s.bmax_)
  { bmin_ := bb.1, bmax_ := bb.2, nodes_ := nodes }

/-- Function `Scene::GetBoundingBox`: the pair `(bmin, bmax)` written through the output
parameters. -/
def GetBoundingBox (s : Scene) : Vec3 × Vec3 :=
  (![s.bmin_ 0, s.bmin_ 1, s.bmin_ 2], ![s.bmax_ 0, s.bmax_ 1, s.bmax_ 2])

end Scene

/-! ## Specification-side notions -/

/-- The determinant of a 4x4 array, expanded along row 0. -/
def det4 (m : Mat4) : ℚ :=
  m 0 0 * (m 1 1 * (m 2 2 * m 3 3 - m 2 3 * m 3 2) - m 1 2 * (m 2 1 * m 3 3 - m 2 3 * m 3 1)
      + m 1 3 * (m 2 1 * m 3 2 - m 2 2 * m 3 1))
  - m 0 1 * (m 1 0 * (m 2 2 * m 3 3 - m 2 3 * m 3 2) - m 1 2 * (m 2 0 * m 3 3 - m 2 3 * m 3 0)
      + m 1 3 * (m 2 0 * m 3 2 - m 2 2 * m 3 0))
  + m 0 2 * (m 1 0 * (m 2 1 * m 3 3 - m 2 3 * m 3 1) - m 1 1 * (m 2 0 * m 3 3 - m 2 3 * m 3 0)
      + m 1 3 * (m 2 0 * m 3 1 - m 2 1 * m 3 0))
  - m 0 3 * (m 1 0 * (m 2 1 * m 3 2 - m 2 2 * m 3 1) - m 1 1 * (m 2 0 * m 3 2 - m 2 2 * m 3 0)
      + m 1 2 * (m 2 0 * m 3 1 - m 2 1 * m 3 0))

/-- The determinant of the upper-left 3x3 block of a 4x4 array, expanded along
row 0. -/
def det33 (m : Mat4) : ℚ :=
  m 0 0 * (m 1 1 * m 2 2 - m 1 2 * m 2 1) - m 0 1 * (m 1 0 * m 2 2 - m 1 2 * m 2 0)
    + m 0 2 * (m 1 0 * m 2 1 - m 1 1 * m 2 0)

/-- The upper-left 3x3 block of a 4x4 array, as a matrix. -/
def upper33 (m : Mat4) : Matrix (Fin 3) (Fin 3) ℚ :=
  Matrix.of fun i j => m i.castSucc j.castSucc

/-- An affine transform in the `MultV` convention: the last column is
`0, 0, 0, 1`. -/
def IsAffine (m : Mat4) : Prop := m 0 3 = 0 ∧ m 1 3 = 0 ∧ m 2 3 = 0 ∧ m 3 3 = 1

instance (m : Mat4) : Decidable (IsAffine m) := by
  unfold IsAffine
  infer_instance

/-- The dot product of two 3-vectors. -/
def dot (a b : Vec3) : ℚ := a 0 * b 0 + a 1 * b 1 + a 2 * b 2

/-- The corner of the box `(bmin, bmax)` that takes `bmax` on the axes where `c`
is `true` and `bmin` on the others. -/
def boxCorner (bmin bmax : Vec3) (c : Fin 3 → Bool) : Vec3 :=
  fun k => if c k then bmax k else bmin k

/-- The array `m` with its translation row `m[3][0..2]` replaced by `t`. -/
def withTranslation (m : Mat4) (t : Vec3) : Mat4 :=
  setEntry (setEntry (setEntry m 3 0 (t 0)) 3 1 (t 1)) 3 2 (t 2)

/-- The box `acc` contains the world box of every node of `l`. -/
def Encloses (acc : Vec3 × Vec3) (l : List Node) : Prop :=
  ∀ n ∈ l, ∀ k, acc.1 k ≤ n.xbmin_ k ∧ n.xbmax_ k ≤ acc.2 k

/-- The array `Inverse m` with entry `[3][3]` replaced by the cofactor of
position `(3, 3)` over the determinant. -/
def repairedInverse (m : Mat4) : Mat4 :=
  fun i j => if i = 3 ∧ j = 3 then det33 m / det4 m else Matrix.Inverse m i j

/-! ## Concrete inputs -/

/-- The rotation by 90 degrees about the z axis. -/
def rotZ90 : Mat4 :=
  ![![0, 1, 0, 0],
    ![-1, 0, 0, 0],
    ![0, 0, 1, 0],
    ![0, 0, 0, 1]]

/-- A shear in the xy plane combined with a scale by 3 along z. -/
def shearScale : Mat4 :=
  ![![1, 1, 0, 0],
    ![1, 2, 0, 0],
    ![0, 0, 3, 0],
    ![0, 0, 0, 1]]

/-- A scale by `2, 3, 4` followed by a translation by `5, 6, 7`. -/
def scaleTranslate : Mat4 :=
  ![![2, 0, 0, 0],
    ![0, 3, 0, 0],
    ![0, 0, 4, 0],
    ![5, 6, 7, 1]]

/-- A BVH with the single record `[0, 1] x [0, 2] x [0, 3]`. -/
def unitBvh : List BVHNode := [{ bmin := ![0, 0, 0], bmax := ![1, 2, 3] }]

/-- A node over `unitBvh` as the constructor leaves it (with `1000` for the
largest finite value), its transform then set to `m`. -/
def nodeWith (m : Mat4) : Node := { Node.ctor 1000 unitBvh [0] with xform_ := m }

/-- The translation by `1` along x. -/
def transX1 : Mat4 :=
  ![![1, 0, 0, 0],
    ![0, 1, 0, 0],
    ![0, 0, 1, 0],
    ![1, 0, 0, 1]]

/-- The uniform scale by `2`. -/
def scale2 : Mat4 :=
  ![![2, 0, 0, 0],
    ![0, 2, 0, 0],
    ![0, 0, 2, 0],
    ![0, 0, 0, 1]]

/-- A BVH with the single record `[1, 2] x [1, 2] x [1, 2]`. -/
def farBvh : List BVHNode := [{ bmin := ![1, 1, 1], bmax := ![2, 2, 2] }]

/-- A scene whose aggregate box holds zeros, as zero-filled storage would leave
it since no code initialises `bmin_` and `bmax_`, after `AddNode` of a freshly
constructed node over `farBvh`. -/
def staleScene : Scene :=
  Scene.AddNode { bmin_ := ![0, 0, 0], bmax_ := ![0, 0, 0], nodes_ := [] }
    (Node.ctor 1000 farBvh [0])

/-- A scene without nodes whose aggregate box holds zeros, as zero-filled
storage would leave it since no code initialises `bmin_` and `bmax_`. -/
def emptyScene : Scene := { bmin_ := ![0, 0, 0], bmax_ := ![0, 0, 0], nodes_ := [] }

/-- A BVH whose single record is the constructor's empty sentinel for
`tmax = 1000`: `bmin = (1000, 1000, 1000)`, `bmax = (-1000, -1000, -1000)`. -/
def sentinelBvh : List BVHNode :=
  [{ bmin := ![1000, 1000, 1000], bmax := ![-1000, -1000, -1000] }]

/-- A BVH whose single record is inverted on every axis: `bmin = (1, 1, 1)`,
`bmax = (0, 0, 0)`. -/
def invertedBvh : List BVHNode := [{ bmin := ![1, 1, 1], bmax := ![0, 0, 0] }]

/-- The node `nodeWith rotZ90` bound to another BVH and holding a stale world
minimum; its transform and local box are those of `nodeWith rotZ90`. -/
def staleNode : Node :=
  { nodeWith rotZ90 with bvh_nodes_ := farBvh, xbmin_ := ![0, 0, 0] }

/-- A node over `invertedBvh` rotated by 90 degrees about z. -/
def invertedNode : Node := { Node.ctor 1000 invertedBvh [0] with xform_ := rotZ90 }

/-! ## The element type `double`

The arithmetic of `T = double` that the templates use: `+`, `-`, `*`, `/` and
the comparisons, each correctly rounded to nearest with ties to even. The
payload and sign of a NaN are not represented. -/

/-- A value of the IEEE 754 binary64 format, the `double` of `Matrixd`: a finite
value with sign `neg` and magnitude `mag` (so both zeros exist), an infinity
with sign `neg`, or a NaN. -/
inductive Dbl where
  | fin (neg : Bool) (mag : ℚ)
  | inf (neg : Bool)
  | nan
deriving DecidableEq

namespace Dbl

/-- The integer part of the base-2 logarithm of `n`, by repeated halving; `fuel`
bounds the number of halvings and `fuel = n` is always enough. -/
def log2Fuel : ℕ → ℕ → ℕ
  | 0, _ => 0
  | fuel + 1, n => if n < 2 then 0 else log2Fuel fuel (n / 2) + 1

/-- The integer part of the base-2 logarithm of `a / b`, for positive `a`, `b`. -/
def ilog2 (a b : ℕ) : ℤ :=
  let e0 : ℤ := (log2Fuel a a : ℤ) - (log2Fuel b b : ℤ)
  if b * 2 ^ e0.toNat ≤ a * 2 ^ (-e0).toNat then e0 else e0 - 1

/-- The natural number nearest to `num / den`, ties going to the even one. -/
def roundHalfEven (num den : ℕ) : ℕ :=
  let q := num / den
  let r := num % den
  if 2 * r < den then q else if den < 2 * r then q + 1 else if q % 2 = 0 then q else q + 1

/-- Rounding to nearest, ties to even, of the exact result with sign `neg` and
magnitude `m`: 53 significant bits, least exponent -1022 (so subnormals are
multiples of `2^-1074`), and a rounded magnitude of `2^1024` or more becomes
an infinity. -/
def round (neg : Bool) (m : ℚ) : Dbl :=
  if m = 0 then fin neg 0
  else
    let a := m.num.natAbs
    let b := m.den
    let e := max (ilog2 a b) (-1022)
    let s : ℤ := 52 - e
    let n := roundHalfEven (a * 2 ^ s.toNat) (b * 2 ^ (-s).toNat)
    let v : ℚ := ((n * 2 ^ (-s).toNat : ℕ) : ℚ) / ((2 ^ s.toNat : ℕ) : ℚ)
    if ((2 ^ 1024 : ℕ) : ℚ) ≤ v then inf neg else fin neg v

/-- The rational value of a finite sign and magnitude. -/
def signed (neg : Bool) (mag : ℚ) : ℚ := if neg then -mag else mag

/-- The double nearest to the rational `q`. -/
def ofRat (q : ℚ) : Dbl := round (decide (q < 0)) |q|

/-- Addition of binary64. An exact zero sum is `-0` only when both operands are
negative zeros. -/
def add : Dbl → Dbl → Dbl
  | nan, _ => nan
  | _, nan => nan
  | inf a, inf b => if a = b then inf a else nan
  | inf a, fin _ _ => inf a
  | fin _ _, inf b => inf b
  | fin s1 m1, fin s2 m2 =>
    let v := signed s1 m1 + signed s2 m2
    if v = 0 then fin (s1 && s2) 0 else round (decide (v < 0)) |v|

/-- Negation of binary64: the sign bit is flipped. -/
def neg : Dbl → Dbl
  | nan => nan
  | inf a => inf (!a)
  | fin s m => fin (!s) m

/-- Subtraction of binary64. -/
def sub (x y : Dbl) : Dbl := add x (neg y)

/-- Multiplication of binary64. -/
def mul : Dbl → Dbl → Dbl
  | nan, _ => nan
  | _, nan => nan
  | inf a, inf b => inf (xor a b)
  | inf a, fin s m => if m = 0 then nan else inf (xor a s)
  | fin s m, inf b => if m = 0 then nan else inf (xor s b)
  | fin s1 m1, fin s2 m2 => round (xor s1 s2) (m1 * m2)

/-- Division of binary64. -/
def div : Dbl → Dbl → Dbl
  | nan, _ => nan
  | _, nan => nan
  | inf _, inf _ => nan
  | inf a, fin s _ => inf (xor a s)
  | fin s _, inf b => fin (xor s b) 0
  | fin s1 m1, fin s2 m2 =>
    if m2 = 0 then (if m1 = 0 then nan else inf (xor s1 s2)) else round (xor s1 s2) (m1 / m2)

/-- The comparison `x < y` of binary64: false when either side is a NaN. -/
def lt : Dbl → Dbl → Bool
  | nan, _ => false
  | _, nan => false
  | inf a, inf b => a && !b
  | inf a, fin _ _ => a
  | fin _ _, inf b => !b
  | fin s1 m1, fin s2 m2 => decide (signed s1 m1 < signed s2 m2)

/-- The comparison `x <= y` of binary64: false when either side is a NaN. -/
def le : Dbl → Dbl → Bool
  | nan, _ => false
  | _, nan => false
  | inf a, inf b => a || !b
  | inf a, fin _ _ => a
  | fin _ _, inf b => !b
  | fin s1 m1, fin s2 m2 => decide (signed s1 m1 ≤ signed s2 m2)

instance : Add Dbl := ⟨add⟩
instance : Sub Dbl := ⟨sub⟩
instance : Mul Dbl := ⟨mul⟩
instance : Div Dbl := ⟨div⟩
instance : Neg Dbl := ⟨neg⟩
instance : LT Dbl := ⟨fun x y => lt x y = true⟩
instance : LE Dbl := ⟨fun x y => le x y = true⟩
instance : DecidableRel ((· < ·) : Dbl → Dbl → Prop) := fun x y => decEq (lt x y) true
instance : DecidableRel ((· ≤ ·) : Dbl → Dbl → Prop) := fun x y => decEq (le x y) true
instance : OfNat Dbl 0 := ⟨fin false 0⟩
instance : OfNat Dbl 1 := ⟨fin false 1⟩

end Dbl

/-! ## The templates at an arbitrary element type

The same functions as above with the element type `T` left as a parameter, as
the source has it; `T` supplies the arithmetic and the comparison `<`. They
are used at `T = Dbl`, the `double` of `Matrixd`. -/

namespace Tmpl

/-- A `T m[4][4]` array. -/
abbrev Mat4 (T : Type) := Fin 4 → Fin 4 → T

/-- A `T v[3]` array. -/
abbrev Vec3 (T : Type) := Fin 3 → T

/-- Library function `std::min(a, b)`: returns `b` when `b < a`, otherwise `a`. -/
def stdMin {T : Type} [LT T] [DecidableRel ((· < ·) : T → T → Prop)] (a b : T) : T :=
  if b < a then b else a

/-- Library function `std::max(a, b)`: returns `b` when `a < b`, otherwise `a`. -/
def stdMax {T : Type} [LT T] [DecidableRel ((· < ·) : T → T → Prop)] (a b : T) : T :=
  if a < b then b else a

namespace Matrix

/-- Function `Matrix<T>::Identity`. -/
def Identity {T : Type} [OfNat T 0] [OfNat T 1] : Mat4 T :=
  ![![1, 0, 0, 0],
    ![0, 1, 0, 0],
    ![0, 0, 1, 0],
    ![0, 0, 0, 1]]

/-- Function `Matrix<T>::Copy`: the destination receives all 16 components of `src`. -/
def Copy {T : Type} (src : Mat4 T) : Mat4 T := src

/-- The first stage of `Matrix<T>::Inverse` (lines 102-171), statement by
statement, with the same unrolling of `tsrc[16]` and `tmp[12]` into scalars as
in `nanosg.Matrix.InverseCofactors`. -/
def InverseCofactors {T : Type} [Add T] [Sub T] [Mul T] (m : Mat4 T) : Mat4 T :=
  /- transpose matrix -/
  let tsrc0 := m 0 0
  let tsrc1 := m 1 0
  let tsrc2 := m 2 0
  let tsrc3 := m 3 0
  let tsrc4 := m 0 1
  let tsrc5 := m 1 1
  let tsrc6 := m 2 1
  let tsrc7 := m 3 1
  let tsrc8 := m 0 2
  let tsrc9 := m 1 2
  let tsrc10 := m 2 2
  let tsrc11 := m 3 2
  let tsrc12 := m 0 3
  let tsrc13 := m 1 3
  let tsrc14 := m 2 3
  let tsrc15 := m 3 3
  /- calculate pair for first 8 elements(cofactors) -/
  let tmp0 := tsrc10 * tsrc15
  let tmp1 := tsrc11 * tsrc14
  let tmp2 := tsrc9 * tsrc15
  let tmp3 := tsrc11 * tsrc13
  let tmp4 := tsrc9 * tsrc14
  let tmp5 := tsrc10 * tsrc13
  let tmp6 := tsrc8 * tsrc15
  let tmp7 := tsrc11 * tsrc12
  let tmp8 := tsrc8 * tsrc14
  let tmp9 := tsrc10 * tsrc12
  let tmp10 := tsrc8 * tsrc13
  let tmp11 := tsrc9 * tsrc12
  /- calculate first 8 elements(cofactors) -/
  let c00 := (tmp0 * tsrc5 + tmp3 * tsrc6 + tmp4 * tsrc7)
    - (tmp1 * tsrc5 + tmp2 * tsrc6 + tmp5 * tsrc7)
  let c01 := (tmp1 * tsrc4 + tmp6 * tsrc6 + tmp9 * tsrc7)
    - (tmp0 * tsrc4 + tmp7 * tsrc6 + tmp8 * tsrc7)
  let c02 := (tmp2 * tsrc4 + tmp7 * tsrc5 + tmp10 * tsrc7)
    - (tmp3 * tsrc4 + tmp6 * tsrc5 + tmp11 * tsrc7)
  let c03 := (tmp5 * tsrc4 + tmp8 * tsrc5 + tmp11 * tsrc6)
    - (tmp4 * tsrc4 + tmp9 * tsrc5 + tmp10 * tsrc6)
  let c10 := (tmp1 * tsrc1 + tmp2 * tsrc2 + tmp5 * tsrc3)
    - (tmp0 * tsrc1 + tmp3 * tsrc2 + tmp4 * tsrc3)
  let c11 := (tmp0 * tsrc0 + tmp7 * tsrc2 + tmp8 * tsrc3)
    - (tmp1 * tsrc0 + tmp6 * tsrc2 + tmp9 * tsrc3)
  let c12 := (tmp3 * tsrc0 + tmp6 * tsrc1 + tmp11 * tsrc3)
    - (tmp2 * tsrc0 + tmp7 * tsrc1 + tmp10 * tsrc3)
  let c13 := (tmp4 * tsrc0 + tmp9 * tsrc1 + tmp10 * tsrc2)
    - (tmp5 * tsrc0 + tmp8 * tsrc1 + tmp11 * tsrc2)
  /- calculate pairs for second 8 elements(cofactors) -/
  let tmp0' := tsrc2 * tsrc7
  let tmp1' := tsrc3 * tsrc6
  let tmp2' := tsrc1 * tsrc7
  let tmp3' := tsrc3 * tsrc5
  let tmp4' := tsrc1 * tsrc6
  let tmp5' := tsrc2 * tsrc5
  let tmp6' := tsrc0 * tsrc7
  let tmp7' := tsrc3 * tsrc4
  let tmp8' := tsrc0 * tsrc6
  let tmp9' := tsrc2 * tsrc4
  let tmp10' := tsrc0 * tsrc5
  let tmp11' := tsrc1 * tsrc4
  /- calculate second 8 elements(cofactors) -/
  let c20 := (tmp0' * tsrc13 + tmp3' * tsrc14 + tmp4' * tsrc15)
    - (tmp1' * tsrc13 + tmp2' * tsrc14 + tmp5' * tsrc15)
  let c21 := (tmp1' * tsrc12 + tmp6' * tsrc14 + tmp9' * tsrc15)
    - (tmp0' * tsrc12 + tmp7' * tsrc14 + tmp8' * tsrc15)
  let c22 := (tmp2' * tsrc12 + tmp7' * tsrc13 + tmp10' * tsrc15)
    - (tmp3' * tsrc12 + tmp6' * tsrc13 + tmp11' * tsrc15)
  let c23 := (tmp5' * tsrc12 + tmp8' * tsrc13 + tmp11' * tsrc14)
    - (tmp4' * tsrc12 + tmp9' * tsrc13 + tmp10' * tsrc14)
  let c30 := (tmp2' * tsrc10 + tmp5' * tsrc11 + tmp1' * tsrc9)
    - (tmp4' * tsrc11 + tmp0' * tsrc9 + tmp3' * tsrc10)
  let c31 := (tmp8' * tsrc11 + tmp0' * tsrc8 + tmp7' * tsrc10)
    - (tmp6' * tsrc10 + tmp9' * tsrc11 + tmp1' * tsrc8)
  let c32 := (tmp6' * tsrc9 + tmp11' * tsrc11 + tmp3' * tsrc8)
    - (tmp10' * tsrc11 + tmp2' * tsrc8 + tmp7' * tsrc9)
  let c33 := (tmp10' * tsrc10 + tmp4' * tsrc8 + tmp9' * tsrc9)
    - (tmp8' * tsrc9 + tmp11' * tsrc0 + tmp5' * tsrc8)
  ![![c00, c01, c02, c03],
    ![c10, c11, c12, c13],
    ![c20, c21, c22, c23],
    ![c30, c31, c32, c33]]

/-- The value of `det` in `Matrix<T>::Inverse` after line 174. -/
def InverseDet {T : Type} [Add T] [Sub T] [Mul T] (m : Mat4 T) : T :=
  let tsrc0 := m 0 0
  let tsrc1 := m 1 0
  let tsrc2 := m 2 0
  let tsrc3 := m 3 0
  let c := InverseCofactors m
  tsrc0 * c 0 0 + tsrc1 * c 0 1 + tsrc2 * c 0 2 + tsrc3 * c 0 3

/-- Function `Matrix<T>::Inverse`: the cofactor stage, then `det = 1.0 / det` and the
final double loop `m[j][i] *= det`. -/
def Inverse {T : Type} [Add T] [Sub T] [Mul T] [Div T] [OfNat T 1] (m : Mat4 T) : Mat4 T :=
  let c := InverseCofactors m
  let det := InverseDet m
  let det := 1 / det
  fun j i => c j i * det

/-- Function `Matrix<T>::Transpose`: the temporary `t[j][i] = m[i][j]` is filled from the
original `m` and then copied back. -/
def Transpose {T : Type} (m : Mat4 T) : Mat4 T :=
  let t : Mat4 T := fun j i => m i j
  fun j i => t j i

/-- Function `Matrix<T>::Mult`: `dst[i][j]` starts at `0` and accumulates
`m0[k][j] * m1[i][k]` for `k = 0, 1, 2, 3` in that order. -/
def Mult {T : Type} [Add T] [Mul T] [OfNat T 0] (m0 m1 : Mat4 T) : Mat4 T :=
  fun i j => (List.finRange 4).foldl (fun acc k => acc + m0 k j * m1 i k) 0

/-- Function `Matrix<T>::MultV`. -/
def MultV {T : Type} [Add T] [Mul T] (m : Mat4 T) (v : Vec3 T) : Vec3 T :=
  let tmp0 := m 0 0 * v 0 + m 1 0 * v 1 + m 2 0 * v 2 + m 3 0
  let tmp1 := m 0 1 * v 0 + m 1 1 * v 1 + m 2 1 * v 2 + m 3 1
  let tmp2 := m 0 2 * v 0 + m 1 2 * v 1 + m 2 2 * v 2 + m 3 2
  ![tmp0, tmp1, tmp2]

end Matrix

/-- Function `XformBoundingBox`: the pair `(xbmin, xbmax)` written through the two output
parameters; corners, images and fold as in `nanosg.XformBoundingBox`. -/
def XformBoundingBox {T : Type} [Add T] [Mul T] [LT T]
    [DecidableRel ((· < ·) : T → T → Prop)] (bmin bmax : Vec3 T) (m : Mat4 T) :
    Vec3 T × Vec3 T :=
  let b : Fin 8 → Vec3 T :=
    ![![bmin 0, bmin 1, bmin 2],
      ![bmax 0, bmin 1, bmin 2],
      ![bmin 0, bmax 1, bmin 2],
      ![bmax 0, bmax 1, bmin 2],
      ![bmin 0, bmin 1, bmax 2],
      ![bmax 0, bmin 1, bmax 2],
      ![bmin 0, bmax 1, bmax 2],
      ![bmax 0, bmax 1, bmax 2]]
  let xb : Fin 8 → Vec3 T := fun i => Matrix.MultV m (b i)
  let xbmin : Vec3 T := ![xb 0 0, xb 0 1, xb 0 2]
  let xbmax : Vec3 T := ![xb 0 0, xb 0 1, xb 0 2]
  ([1, 2, 3, 4, 5, 6, 7] : List (Fin 8)).foldl
    (fun acc i =>
      (![stdMin (xb i 0) (acc.1 0), stdMin (xb i 1) (acc.1 1), stdMin (xb i 2) (acc.1 2)],
       ![stdMax (xb i 0) (acc.2 0), stdMax (xb i 1) (acc.2 1), stdMax (xb i 2) (acc.2 2)]))
    (xbmin, xbmax)

/-- Modelled from the spec: `nanort::BVHNode<T>` is declared in `nanort.h`, which
is not among the translated sources; the two members `bmin[3]` and `bmax[3]`
that `Node` reads. -/
structure BVHNode (T : Type) where
  bmin : Vec3 T
  bmax : Vec3 T

/-- The data members of `Node<T>`. -/
structure Node (T : Type) where
  lbmin_ : Vec3 T
  lbmax_ : Vec3 T
  xbmin_ : Vec3 T
  xbmax_ : Vec3 T
  xform_ : Mat4 T
  inv_xform_ : Mat4 T
  inv_xform33_ : Mat4 T
  inv_transpose_xform33_ : Mat4 T
  bvh_nodes_ : List (BVHNode T)
  bvh_indices_ : List Nat

/-- The assignment `m[i][j] = x` to one entry of a 4x4 array. -/
def setEntry {T : Type} (m : Mat4 T) (i j : Fin 4) (x : T) : Mat4 T :=
  fun a b => if a = i ∧ b = j then x else m a b

namespace Node

/-- The constructor `Node<T>::Node`. `tmax` stands for
`std::numeric_limits<T>::max()`, the largest finite value of `T`. -/
def ctor {T : Type} [Neg T] [OfNat T 0] [OfNat T 1] (tmax : T)
    (bvh_nodes : List (BVHNode T)) (bvh_indices : List Nat) : Node T :=
  let xbmin : Vec3 T := ![tmax, tmax, tmax]
  let xbmax : Vec3 T := ![-tmax, -tmax, -tmax]
  let lbmin : Vec3 T := ![tmax, tmax, tmax]
  let lbmax : Vec3 T := ![-tmax, -tmax, -tmax]
  let xform : Mat4 T := Matrix.Identity
  let inv_xform : Mat4 T := Matrix.Identity
  let inv_xform33 : Mat4 T := setEntry Matrix.Identity 3 3 0
  let inv_transpose_xform33 : Mat4 T := setEntry Matrix.Identity 3 3 0
  let lb : Vec3 T × Vec3 T :=
    match bvh_nodes with
    | [] => (lbmin, lbmax)
    | n0 :: _ => (![n0.bmin 0, n0.bmin 1, n0.bmin 2], ![n0.bmax 0, n0.bmax 1, n0.bmax 2])
  { lbmin_ := lb.1, lbmax_ := lb.2, xbmin_ := xbmin, xbmax_ := xbmax,
    xform_ := xform, inv_xform_ := inv_xform, inv_xform33_ := inv_xform33,
    inv_transpose_xform33_ := inv_transpose_xform33,
    bvh_nodes_ := bvh_nodes, bvh_indices_ := bvh_indices }

/-- Function `Node<T>::Update`: returns at once when `bvh_nodes_` is empty; otherwise
recomputes the world box and the three cached matrices from `lbmin_`,
`lbmax_` and `xform_`. -/
def Update {T : Type} [Add T] [Sub T] [Mul T] [Div T] [LT T]
    [DecidableRel ((· < ·) : T → T → Prop)] [OfNat T 0] [OfNat T 1] (n : Node T) : Node T :=
  if n.bvh_nodes_.isEmpty then n
  else
    /- Compute the bounding box in world coordinate. -/
    let xb := XformBoundingBox n.lbmin_ n.lbmax_ n.xform_
    /- Inverse(xform) -/
    let inv_xform := Matrix.Copy n.xform_
    let inv_xform := Matrix.Inverse inv_xform
    /- Clear translation, then inverse(xform) -/
    let inv_xform33 := Matrix.Copy n.xform_
    let inv_xform33 := setEntry inv_xform33 3 0 0
    let inv_xform33 := setEntry inv_xform33 3 1 0
    let inv_xform33 := setEntry inv_xform33 3 2 0
    let inv_xform33 := Matrix.Inverse inv_xform33
    /- Inverse transpose of xform33 -/
    let inv_transpose_xform33 := Matrix.Copy inv_xform33
    let inv_transpose_xform33 := Matrix.Transpose inv_transpose_xform33
    { n with
      xbmin_ := xb.1, xbmax_ := xb.2, inv_xform_ := inv_xform,
      inv_xform33_ := inv_xform33, inv_transpose_xform33_ := inv_transpose_xform33 }

end Node

end Tmpl

/-! ## Concrete inputs at `T = double` -/

/-- The double `2^k`, for `k <= 1023`. -/
def Dbl.pow2 (k : ℕ) : Dbl := Dbl.fin false ((2 ^ k : ℕ) : ℚ)

/-- The largest finite double, `(2^53 - 1) * 2^971`, the value of
`std::numeric_limits<double>::max()`. -/
def Dbl.max : Dbl := Dbl.fin false (((2 ^ 53 - 1) * 2 ^ 971 : ℕ) : ℚ)

/-- A BVH with the single record `[0, 2^600] x [0, 1] x [-2^600, 0]`. -/
def overflowBvh : List (Tmpl.BVHNode Dbl) :=
  [{ bmin := ![0, 0, -Dbl.pow2 600], bmax := ![Dbl.pow2 600, 1, 0] }]

/-- The identity with `m[0][0]` and `m[2][0]` set to `2^600`. -/
def overflowXform : Tmpl.Mat4 Dbl :=
  ![![Dbl.pow2 600, 0, 0, 0],
    ![0, 1, 0, 0],
    ![Dbl.pow2 600, 0, 1, 0],
    ![0, 0, 0, 1]]

/-- A node over `overflowBvh` as the constructor leaves it, its transform then
set to `overflowXform`; every number in it is finite. -/
def overflowNode : Tmpl.Node Dbl :=
  { Tmpl.Node.ctor Dbl.max overflowBvh [0] with xform_ := overflowXform }

/-- A BVH with the single record `[0, 2^600] x [0, 2^600] x [0, 0]`. -/
def nanBvh : List (Tmpl.BVHNode Dbl) :=
  [{ bmin := ![0, 0, 0], bmax := ![Dbl.pow2 600, Dbl.pow2 600, 0] }]

/-- The identity with `m[0][0]` set to `2^600` and `m[1][0]` to `-2^600`. -/
def nanXform : Tmpl.Mat4 Dbl :=
  ![![Dbl.pow2 600, 0, 0, 0],
    ![-Dbl.pow2 600, 1, 0, 0],
    ![0, 0, 1, 0],
    ![0, 0, 0, 1]]

/-- A node over `nanBvh` as the constructor leaves it, its transform then set
to `nanXform`; every number in it is finite. -/
def nanNode : Tmpl.Node Dbl :=
  { Tmpl.Node.ctor Dbl.max nanBvh [0] with xform_ := nanXform }

/-- The scale by the double nearest to `1/10`. -/
def tenthD : Tmpl.Mat4 Dbl :=
  ![![Dbl.ofRat (1 / 10), 0, 0, 0],
    ![0, Dbl.ofRat (1 / 10), 0, 0],
    ![0, 0, Dbl.ofRat (1 / 10), 0],
    ![0, 0, 0, 1]]

/-- The scale by `3`. -/
def threeD : Tmpl.Mat4 Dbl :=
  ![![Dbl.ofRat 3, 0, 0, 0],
    ![0, Dbl.ofRat 3, 0, 0],
    ![0, 0, Dbl.ofRat 3, 0],
    ![0, 0, 0, 1]]

/-- The point `(7, 7, 7)`. -/
def sevens : Tmpl.Vec3 Dbl := ![Dbl.ofRat 7, Dbl.ofRat 7, Dbl.ofRat 7]

/-! ## Auxiliary lemmas -/

theorem stdMin_eq_min (a b : ℚ) : stdMin a b = min a b := by
  unfold stdMin
  split_ifs with h
  · exact (min_eq_right h.le).symm
  · exact (min_eq_left (not_lt.mp h)).symm

theorem stdMax_eq_max (a b : ℚ) : stdMax a b = max a b := by
  unfold stdMax
  split_ifs with h
  · exact (max_eq_right h.le).symm
  · exact (max_eq_left (not_lt.mp h)).symm

theorem det_of_eq_det4 (m : Mat4) : (Matrix.of m).det = det4 m := by
  have e3 : (Fin.succ 2 : Fin 4) = 3 := rfl
  have e2 : (Fin.castSucc 2 : Fin 4) = 2 := rfl
  rw [Matrix.det_succ_row_zero]
  simp [Fin.sum_univ_succ, Matrix.det_fin_three, Matrix.submatrix, Fin.succAbove, det4, e3, e2]
  ring

theorem det_upper33 (m : Mat4) : (upper33 m).det = det33 m := by
  have e2 : (Fin.castSucc 2 : Fin 4) = 2 := rfl
  simp [Matrix.det_fin_three, upper33, det33, e2]
  ring

theorem InverseDet_eq_det4 (m : Mat4) : Matrix.InverseDet m = det4 m := by
  simp only [Matrix.InverseDet, Matrix.InverseCofactors, det4]
  simp
  ring

theorem isEmpty_eq_false_of_ne_nil {α : Type} (l : List α) (h : l ≠ []) :
    l.isEmpty = false := by
  cases l with
  | nil => exact absurd rfl h
  | cons a t => rfl

theorem MultV_Inverse_MultV (m : Mat4) (h : IsAffine m) (hd : det4 m ≠ 0) (p : Vec3) :
    Matrix.MultV (Matrix.Inverse m) (Matrix.MultV m p) = p := by
  obtain ⟨h0, h1, h2, h3⟩ := h
  funext k
  fin_cases k <;>
  · simp only [Matrix.MultV, Matrix.Inverse, InverseDet_eq_det4]
    simp
    field_simp
    simp [Matrix.InverseCofactors, det4, h0, h1, h2, h3]
    ring

theorem vec8_apply {α : Type} (a0 a1 a2 a3 a4 a5 a6 a7 : α) :
    (![a0, a1, a2, a3, a4, a5, a6, a7] : Fin 8 → α) 0 = a0 ∧
    (![a0, a1, a2, a3, a4, a5, a6, a7] : Fin 8 → α) 1 = a1 ∧
    (![a0, a1, a2, a3, a4, a5, a6, a7] : Fin 8 → α) 2 = a2 ∧
    (![a0, a1, a2, a3, a4, a5, a6, a7] : Fin 8 → α) 3 = a3 ∧
    (![a0, a1, a2, a3, a4, a5, a6, a7] : Fin 8 → α) 4 = a4 ∧
    (![a0, a1, a2, a3, a4, a5, a6, a7] : Fin 8 → α) 5 = a5 ∧
    (![a0, a1, a2, a3, a4, a5, a6, a7] : Fin 8 → α) 6 = a6 ∧
    (![a0, a1, a2, a3, a4, a5, a6, a7] : Fin 8 → α) 7 = a7 :=
  ⟨rfl, rfl, rfl, rfl, rfl, rfl, rfl, rfl⟩

theorem vec3_apply {α : Type} (a0 a1 a2 : α) :
    (![a0, a1, a2] : Fin 3 → α) 0 = a0 ∧ (![a0, a1, a2] : Fin 3 → α) 1 = a1 ∧
    (![a0, a1, a2] : Fin 3 → α) 2 = a2 :=
  ⟨rfl, rfl, rfl⟩

theorem XformBoundingBox_fst (bmin bmax : Vec3) (m : Mat4) (k : Fin 3) :
    (XformBoundingBox bmin bmax m).1 k =
      min (Matrix.MultV m ![bmax 0, bmax 1, bmax 2] k)
      (min (Matrix.MultV m ![bmin 0, bmax 1, bmax 2] k)
      (min (Matrix.MultV m ![bmax 0, bmin 1, bmax 2] k)
      (min (Matrix.MultV m ![bmin 0, bmin 1, bmax 2] k)
      (min (Matrix.MultV m ![bmax 0, bmax 1, bmin 2] k)
      (min (Matrix.MultV m ![bmin 0, bmax 1, bmin 2] k)
      (min (Matrix.MultV m ![bmax 0, bmin 1, bmin 2] k)
        (Matrix.MultV m ![bmin 0, bmin 1, bmin 2] k))))))) := by
  simp only [XformBoundingBox, List.foldl, stdMin_eq_min, (vec8_apply _ _ _ _ _ _ _ _).1,
    (vec8_apply _ _ _ _ _ _ _ _).2.1, (vec8_apply _ _ _ _ _ _ _ _).2.2.1,
    (vec8_apply _ _ _ _ _ _ _ _).2.2.2.1, (vec8_apply _ _ _ _ _ _ _ _).2.2.2.2.1,
    (vec8_apply _ _ _ _ _ _ _ _).2.2.2.2.2.1, (vec8_apply _ _ _ _ _ _ _ _).2.2.2.2.2.2.1,
    (vec8_apply _ _ _ _ _ _ _ _).2.2.2.2.2.2.2]
  fin_cases k <;>
    simp only [(vec3_apply _ _ _).1, (vec3_apply _ _ _).2.1, (vec3_apply _ _ _).2.2] <;> rfl

theorem XformBoundingBox_snd (bmin bmax : Vec3) (m : Mat4) (k : Fin 3) :
    (XformBoundingBox bmin bmax m).2 k =
      max (Matrix.MultV m ![bmax 0, bmax 1, bmax 2] k)
      (max (Matrix.MultV m ![bmin 0, bmax 1, bmax 2] k)
      (max (Matrix.MultV m ![bmax 0, bmin 1, bmax 2] k)
      (max (Matrix.MultV m ![bmin 0, bmin 1, bmax 2] k)
      (max (Matrix.MultV m ![bmax 0, bmax 1, bmin 2] k)
      (max (Matrix.MultV m ![bmin 0, bmax 1, bmin 2] k)
      (max (Matrix.MultV m ![bmax 0, bmin 1, bmin 2] k)
        (Matrix.MultV m ![bmin 0, bmin 1, bmin 2] k))))))) := by
  simp only [XformBoundingBox, List.foldl, stdMax_eq_max, (vec8_apply _ _ _ _ _ _ _ _).1,
    (vec8_apply _ _ _ _ _ _ _ _).2.1, (vec8_apply _ _ _ _ _ _ _ _).2.2.1,
    (vec8_apply _ _ _ _ _ _ _ _).2.2.2.1, (vec8_apply _ _ _ _ _ _ _ _).2.2.2.2.1,
    (vec8_apply _ _ _ _ _ _ _ _).2.2.2.2.2.1, (vec8_apply _ _ _ _ _ _ _ _).2.2.2.2.2.2.1,
    (vec8_apply _ _ _ _ _ _ _ _).2.2.2.2.2.2.2]
  fin_cases k <;>
    simp only [(vec3_apply _ _ _).1, (vec3_apply _ _ _).2.1, (vec3_apply _ _ _).2.2] <;> rfl

theorem boxCorner_eq (bmin bmax : Vec3) (c : Fin 3 → Bool) :
    boxCorner bmin bmax c =
      ![if c 0 then bmax 0 else bmin 0, if c 1 then bmax 1 else bmin 1,
        if c 2 then bmax 2 else bmin 2] := by
  funext k
  fin_cases k <;> rfl

theorem boxCorner_lit (bmin bmax : Vec3) (c0 c1 c2 : Bool) :
    boxCorner bmin bmax ![c0, c1, c2] =
      ![if c0 then bmax 0 else bmin 0, if c1 then bmax 1 else bmin 1,
        if c2 then bmax 2 else bmin 2] := by
  funext k
  fin_cases k <;> rfl

theorem min_mem_of_mem {S : Set ℚ} {a b : ℚ} (ha : a ∈ S) (hb : b ∈ S) : min a b ∈ S := by
  rcases min_choice a b with h | h <;> rw [h] <;> assumption

theorem max_mem_of_mem {S : Set ℚ} {a b : ℚ} (ha : a ∈ S) (hb : b ∈ S) : max a b ∈ S := by
  rcases max_choice a b with h | h <;> rw [h] <;> assumption

theorem cornerImage_mem (bmin bmax : Vec3) (m : Mat4) (k : Fin 3) (c0 c1 c2 : Bool) :
    Matrix.MultV m ![if c0 then bmax 0 else bmin 0, if c1 then bmax 1 else bmin 1,
        if c2 then bmax 2 else bmin 2] k ∈
      Set.range fun c : Fin 3 → Bool => Matrix.MultV m (boxCorner bmin bmax c) k :=
  ⟨![c0, c1, c2], by simp only [boxCorner_lit]⟩

theorem Identity_apply (i j : Fin 4) : Matrix.Identity i j = if i = j then 1 else 0 := by
  revert i j
  decide!

theorem MultV_Identity (v : Vec3) (k : Fin 3) : Matrix.MultV Matrix.Identity v k = v k := by
  fin_cases k <;> simp [Matrix.MultV, Identity_apply]

theorem det4_clearTranslation (m : Mat4) (h : IsAffine m) :
    det4 (setEntry (setEntry (setEntry m 3 0 0) 3 1 0) 3 2 0) = det33 m := by
  obtain ⟨h0, h1, h2, h3⟩ := h
  simp [det4, det33, setEntry, h0, h1, h2, h3]

theorem clear_withTranslation (m : Mat4) (t : Vec3) :
    setEntry (setEntry (setEntry (withTranslation m t) 3 0 0) 3 1 0) 3 2 0 =
      setEntry (setEntry (setEntry m 3 0 0) 3 1 0) 3 2 0 := by
  funext a b
  simp only [setEntry, withTranslation]
  split_ifs <;> rfl

theorem finRange_four : List.finRange 4 = [0, 1, 2, 3] := by decide

theorem Mult_apply (m0 m1 : Mat4) (i j : Fin 4) :
    Matrix.Mult m0 m1 i j =
      0 + m0 0 j * m1 i 0 + m0 1 j * m1 i 1 + m0 2 j * m1 i 2 + m0 3 j * m1 i 3 := by
  simp only [Matrix.Mult, finRange_four, List.foldl]
  rfl

theorem Update_Update (n : Node) : Node.Update (Node.Update n) = Node.Update n := by
  cases h : n.bvh_nodes_.isEmpty
  · simp only [Node.Update, h, Bool.false_eq_true, if_false]
  · simp only [Node.Update, h, if_true]

theorem CommitStep_fst (acc : Vec3 × Vec3) (n : Node) (k : Fin 3) :
    (Scene.CommitStep acc n).1 k = min (acc.1 k) (n.xbmin_ k) := by
  simp only [Scene.CommitStep, stdMin_eq_min]
  fin_cases k <;> rfl

theorem CommitStep_snd (acc : Vec3 × Vec3) (n : Node) (k : Fin 3) :
    (Scene.CommitStep acc n).2 k = max (acc.2 k) (n.xbmax_ k) := by
  simp only [Scene.CommitStep, stdMax_eq_max]
  fin_cases k <;> rfl

theorem CommitStep_of_encloses (acc : Vec3 × Vec3) (n : Node)
    (h : ∀ k, acc.1 k ≤ n.xbmin_ k ∧ n.xbmax_ k ≤ acc.2 k) : Scene.CommitStep acc n = acc := by
  apply Prod.ext <;> funext k
  · rw [CommitStep_fst, min_eq_left (h k).1]
  · rw [CommitStep_snd, max_eq_left (h k).2]

theorem foldl_CommitStep_of_encloses (l : List Node) (acc : Vec3 × Vec3)
    (h : Encloses acc l) : l.foldl Scene.CommitStep acc = acc := by
  induction l with
  | nil => rfl
  | cons n t ih =>
    rw [List.foldl_cons, CommitStep_of_encloses acc n (h n (List.mem_cons_self _ _))]
    exact ih fun x hx => h x (List.mem_cons_of_mem _ hx)

theorem foldl_CommitStep_mono (l : List Node) (acc : Vec3 × Vec3) (k : Fin 3) :
    (l.foldl Scene.CommitStep acc).1 k ≤ acc.1 k ∧ acc.2 k ≤ (l.foldl Scene.CommitStep acc).2 k := by
  induction l generalizing acc with
  | nil => exact ⟨le_rfl, le_rfl⟩
  | cons n t ih =>
    rw [List.foldl_cons]
    refine ⟨(ih _).1.trans ?_, le_trans ?_ (ih _).2⟩
    · rw [CommitStep_fst]; exact min_le_left _ _
    · rw [CommitStep_snd]; exact le_max_left _ _

theorem encloses_foldl_CommitStep (l : List Node) (acc : Vec3 × Vec3) :
    Encloses (l.foldl Scene.CommitStep acc) l := by
  induction l generalizing acc with
  | nil => intro n hn; cases hn
  | cons n t ih =>
    intro x hx k
    rw [List.foldl_cons]
    rcases List.mem_cons.mp hx with rfl | hx
    · refine ⟨(foldl_CommitStep_mono t _ k).1.trans ?_, le_trans ?_ (foldl_CommitStep_mono t _ k).2⟩
      · rw [CommitStep_fst]; exact min_le_right _ _
      · rw [CommitStep_snd]; exact le_max_right _ _
    · exact ih _ x hx k

theorem XformBoundingBox_extrema (bmin bmax : Vec3) (m : Mat4) (k : Fin 3) :
    IsLeast (Set.range fun c : Fin 3 → Bool => Matrix.MultV m (boxCorner bmin bmax c) k)
      ((XformBoundingBox bmin bmax m).1 k) ∧
    IsGreatest (Set.range fun c : Fin 3 → Bool => Matrix.MultV m (boxCorner bmin bmax c) k)
      ((XformBoundingBox bmin bmax m).2 k) := by
  rw [XformBoundingBox_fst, XformBoundingBox_snd]
  have hm := fun c0 c1 c2 => cornerImage_mem bmin bmax m k c0 c1 c2
  have h000 := hm false false false
  have h100 := hm true false false
  have h010 := hm false true false
  have h110 := hm true true false
  have h001 := hm false false true
  have h101 := hm true false true
  have h011 := hm false true true
  have h111 := hm true true true
  simp only [if_true, Bool.false_eq_true, if_false] at h000 h100 h010 h110 h001 h101 h011 h111
  refine ⟨⟨?_, ?_⟩, ⟨?_, ?_⟩⟩
  · exact min_mem_of_mem h111 (min_mem_of_mem h011 (min_mem_of_mem h101 (min_mem_of_mem h001
      (min_mem_of_mem h110 (min_mem_of_mem h010 (min_mem_of_mem h100 h000))))))
  · rintro _ ⟨c, rfl⟩
    show _ ≤ Matrix.MultV m (boxCorner bmin bmax c) k
    rw [boxCorner_eq]
    cases c 0 <;> cases c 1 <;> cases c 2 <;> simp
  · exact max_mem_of_mem h111 (max_mem_of_mem h011 (max_mem_of_mem h101 (max_mem_of_mem h001
      (max_mem_of_mem h110 (max_mem_of_mem h010 (max_mem_of_mem h100 h000))))))
  · rintro _ ⟨c, rfl⟩
    show Matrix.MultV m (boxCorner bmin bmax c) k ≤ _
    rw [boxCorner_eq]
    cases c 0 <;> cases c 1 <;> cases c 2 <;> simp

theorem MultV_apply (m : Mat4) (v : Vec3) (k : Fin 3) :
    Matrix.MultV m v k =
      m 0 k.castSucc * v 0 + m 1 k.castSucc * v 1 + m 2 k.castSucc * v 2 + m 3 k.castSucc := by
  fin_cases k <;> rfl

theorem mul_lowCorner_le (a lo hi x : ℚ) (h1 : lo ≤ x) (h2 : x ≤ hi) :
    a * (if decide (a < 0) = true then hi else lo) ≤ a * x := by
  by_cases h : a < 0
  · simp only [h, decide_True, if_true]
    exact mul_le_mul_of_nonpos_left h2 h.le
  · simp only [h, decide_False, Bool.false_eq_true, if_false]
    exact mul_le_mul_of_nonneg_left h1 (not_lt.mp h)

theorem le_mul_highCorner (a lo hi x : ℚ) (h1 : lo ≤ x) (h2 : x ≤ hi) :
    a * x ≤ a * (if decide (0 < a) = true then hi else lo) := by
  by_cases h : 0 < a
  · simp only [h, decide_True, if_true]
    exact mul_le_mul_of_nonneg_left h2 h.le
  · simp only [h, decide_False, Bool.false_eq_true, if_false]
    exact mul_le_mul_of_nonpos_left h1 (not_lt.mp h)

theorem Update_of_nil (n : Node) (h : n.bvh_nodes_ = []) : Node.Update n = n := by
  simp only [Node.Update, h, List.isEmpty_nil, if_true]

theorem MultV_translation (t v : Vec3) (k : Fin 3) :
    Matrix.MultV (withTranslation Matrix.Identity t) v k = v k + t k := by
  fin_cases k <;> simp [Matrix.MultV, withTranslation, setEntry, Identity_apply]

theorem mul_four (A B : Matrix (Fin 4) (Fin 4) ℚ) (i j : Fin 4) :
    (A * B) i j = A i 0 * B 0 j + A i 1 * B 1 j + A i 2 * B 2 j + A i 3 * B 3 j := by
  rw [Matrix.mul_apply, Fin.sum_univ_four]

set_option maxHeartbeats 1000000 in
theorem repairedInverse_mul (m : Mat4) (hd : det4 m ≠ 0) :
    Matrix.of (repairedInverse m) * Matrix.of m = 1 := by
  ext i j
  rw [mul_four]
  fin_cases i <;> fin_cases j <;>
  · simp only [Matrix.of_apply, repairedInverse, Matrix.Inverse, InverseDet_eq_det4]
    simp
    field_simp
    simp [Matrix.InverseCofactors, det4, det33]
    ring

theorem of_inv_eq_repairedInverse (m : Mat4) (hd : det4 m ≠ 0) :
    (Matrix.of m)⁻¹ = Matrix.of (repairedInverse m) :=
  Matrix.inv_eq_left_inv (repairedInverse_mul m hd)

theorem foldl_CommitStep_fst_mem (l : List Node) (acc : Vec3 × Vec3) (k : Fin 3) :
    (l.foldl Scene.CommitStep acc).1 k ∈
      insert (acc.1 k) {x | ∃ n ∈ l, x = n.xbmin_ k} := by
  induction l generalizing acc with
  | nil => exact Set.mem_insert _ _
  | cons n t ih =>
    rw [List.foldl_cons]
    rcases ih (Scene.CommitStep acc n) with h | ⟨x, hx, hxe⟩
    · rw [h, CommitStep_fst]
      rcases min_choice (acc.1 k) (n.xbmin_ k) with e | e <;> rw [e]
      · exact Set.mem_insert _ _
      · exact Set.mem_insert_of_mem _ ⟨n, List.mem_cons_self _ _, rfl⟩
    · exact Set.mem_insert_of_mem _ ⟨x, List.mem_cons_of_mem _ hx, hxe⟩

theorem foldl_CommitStep_snd_mem (l : List Node) (acc : Vec3 × Vec3) (k : Fin 3) :
    (l.foldl Scene.CommitStep acc).2 k ∈
      insert (acc.2 k) {x | ∃ n ∈ l, x = n.xbmax_ k} := by
  induction l generalizing acc with
  | nil => exact Set.mem_insert _ _
  | cons n t ih =>
    rw [List.foldl_cons]
    rcases ih (Scene.CommitStep acc n) with h | ⟨x, hx, hxe⟩
    · rw [h, CommitStep_snd]
      rcases max_choice (acc.2 k) (n.xbmax_ k) with e | e <;> rw [e]
      · exact Set.mem_insert _ _
      · exact Set.mem_insert_of_mem _ ⟨n, List.mem_cons_self _ _, rfl⟩
    · exact Set.mem_insert_of_mem _ ⟨x, List.mem_cons_of_mem _ hx, hxe⟩

/-- At `T = ℚ` the templates are the functions of the embedding. -/
theorem Tmpl_matrix_rat :
    (Tmpl.Matrix.Identity : Mat4) = Matrix.Identity ∧
    (Tmpl.Matrix.Inverse : Mat4 → Mat4) = Matrix.Inverse ∧
    (Tmpl.Matrix.Transpose : Mat4 → Mat4) = Matrix.Transpose ∧
    (Tmpl.Matrix.Mult : Mat4 → Mat4 → Mat4) = Matrix.Mult ∧
    (Tmpl.Matrix.MultV : Mat4 → Vec3 → Vec3) = Matrix.MultV :=
  ⟨rfl, rfl, rfl, rfl, rfl⟩

/-- At `T = ℚ` the template `XformBoundingBox` is the function of the embedding. -/
theorem Tmpl_XformBoundingBox_rat :
    (Tmpl.XformBoundingBox : Vec3 → Vec3 → Mat4 → Vec3 × Vec3) = XformBoundingBox := rfl

/-- On doubles the two sides of the composition law of `Mult` and `MultV` can
differ by rounding: with the scale by `0.1`, the scale by `3` and the point
`(7, 7, 7)` the x components are `2364389804369511 / 2^50` and
`4728779608739021 / 2^51`. -/
theorem MultV_Mult_double_rounding :
    Tmpl.Matrix.MultV (Tmpl.Matrix.Mult tenthD threeD) sevens 0 =
      Dbl.fin false (2364389804369511 / 1125899906842624) ∧
    Tmpl.Matrix.MultV tenthD (Tmpl.Matrix.MultV threeD sevens) 0 =
      Dbl.fin false (4728779608739021 / 2251799813685248) := by
  constructor <;> decide!

/-! ## Claims -/

/-- C1 (fails on the code). At the rotation by 90 degrees about z, whose
determinant is 1, entry `[3][3]` of the product of `Inverse(M)` and `M` is 0 in
either argument order, while `Identity` has 1 there: line 171 of `Inverse`
reads `tsrc[0]` where the cofactor needs `tsrc[10]`. -/
theorem Inverse_rotZ90_not_inverse :
    (Matrix.of rotZ90).det = 1 ∧
    Matrix.Inverse rotZ90 3 3 = 0 ∧
    Matrix.Mult (Matrix.Inverse rotZ90) rotZ90 3 3 = 0 ∧
    Matrix.Mult rotZ90 (Matrix.Inverse rotZ90) 3 3 = 0 ∧
    Matrix.Identity 3 3 = 1 := by
  decide!

/-- C2. For a node over a non-empty BVH whose transform is affine with
non-zero determinant, the `inv_xform_` cached by `Update` undoes the transform
on points: `MultV(inv_xform, MultV(xform, p)) = p` for every `p`. -/
theorem Update_inv_xform_MultV_cancel (n : Node) (hne : n.bvh_nodes_ ≠ [])
    (haff : IsAffine n.xform_) (hdet : (Matrix.of n.xform_).det ≠ 0) (p : Vec3) :
    Matrix.MultV (Node.Update n).inv_xform_ (Matrix.MultV n.xform_ p) = p := by
  rw [det_of_eq_det4] at hdet
  simp only [Node.Update, isEmpty_eq_false_of_ne_nil _ hne, Matrix.Copy]
  exact MultV_Inverse_MultV _ haff hdet p

/-- Witness for C2: the node over `unitBvh` with the transform `scaleTranslate`
and the point `(1, 2, 3)`. -/
theorem Update_inv_xform_MultV_cancel_witness :
    (nodeWith scaleTranslate).bvh_nodes_ ≠ [] ∧
    IsAffine (nodeWith scaleTranslate).xform_ ∧
    (Matrix.of (nodeWith scaleTranslate).xform_).det ≠ 0 ∧
    Matrix.MultV (Node.Update (nodeWith scaleTranslate)).inv_xform_
      (Matrix.MultV (nodeWith scaleTranslate).xform_ ![1, 2, 3]) = ![1, 2, 3] :=
  ⟨List.cons_ne_nil _ _, by decide!, by decide!,
    Update_inv_xform_MultV_cancel (nodeWith scaleTranslate) (List.cons_ne_nil _ _)
      (by decide!) (by decide!) ![1, 2, 3]⟩

/-- C3 as stated fails on `double`: for the node `overflowNode`, all of whose
numbers are finite, the x components of the eight corner images are
`-inf, NaN, -inf, NaN, 0, inf, 0, inf`; since every comparison with a NaN is
false, the `std::min` fold of `XformBoundingBox` ends with `xbmin[0] = 0`,
although the image of the corner `lbmin` has x component `-inf < 0`. -/
theorem Update_world_box_double_not_minimum :
    overflowNode.bvh_nodes_ ≠ [] ∧
    (Tmpl.Node.Update overflowNode).xbmin_ 0 = Dbl.fin false 0 ∧
    Tmpl.Matrix.MultV overflowNode.xform_ overflowNode.lbmin_ 0 = Dbl.inf true ∧
    Tmpl.Matrix.MultV overflowNode.xform_ overflowNode.lbmin_ 0 <
      (Tmpl.Node.Update overflowNode).xbmin_ 0 := by
  refine ⟨List.cons_ne_nil _ _, ?_, ?_, ?_⟩ <;> decide!

/-- C3, amended. In exact arithmetic, for a node over a non-empty BVH, any local
box and any transform, each component of the world box minimum (maximum)
after `Update` is the least (greatest) value of that component among the
images under `MultV(xform, .)` of the eight corners of the local box. -/
theorem Update_world_box_is_corner_extremum (n : Node) (hne : n.bvh_nodes_ ≠ [])
    (k : Fin 3) :
    IsLeast (Set.range fun c : Fin 3 → Bool =>
        Matrix.MultV n.xform_ (boxCorner n.lbmin_ n.lbmax_ c) k) ((Node.Update n).xbmin_ k) ∧
    IsGreatest (Set.range fun c : Fin 3 → Bool =>
        Matrix.MultV n.xform_ (boxCorner n.lbmin_ n.lbmax_ c) k) ((Node.Update n).xbmax_ k) := by
  simp only [Node.Update, isEmpty_eq_false_of_ne_nil _ hne, Bool.false_eq_true, if_false]
  exact XformBoundingBox_extrema n.lbmin_ n.lbmax_ n.xform_ k

/-- Witness for the amended C3: the node over `unitBvh` (local box `[0, 1] x [0, 2] x [0, 3]`)
rotated by 90 degrees about z, on the x axis; its world box there is `[-2, 0]`. -/
theorem Update_world_box_is_corner_extremum_witness :
    (nodeWith rotZ90).bvh_nodes_ ≠ [] ∧
    (Node.Update (nodeWith rotZ90)).xbmin_ 0 = -2 ∧
    (Node.Update (nodeWith rotZ90)).xbmax_ 0 = 0 ∧
    IsLeast (Set.range fun c : Fin 3 → Bool =>
        Matrix.MultV (nodeWith rotZ90).xform_
          (boxCorner (nodeWith rotZ90).lbmin_ (nodeWith rotZ90).lbmax_ c) 0)
      ((Node.Update (nodeWith rotZ90)).xbmin_ 0) ∧
    IsGreatest (Set.range fun c : Fin 3 → Bool =>
        Matrix.MultV (nodeWith rotZ90).xform_
          (boxCorner (nodeWith rotZ90).lbmin_ (nodeWith rotZ90).lbmax_ c) 0)
      ((Node.Update (nodeWith rotZ90)).xbmax_ 0) :=
  ⟨List.cons_ne_nil _ _, by decide!, by decide!,
    Update_world_box_is_corner_extremum (nodeWith rotZ90) (List.cons_ne_nil _ _) 0⟩

/-- C4 (fails on the code). `Commit` folds the nodes' boxes into whatever
`bmin_`, `bmax_` already hold and never resets them: on a scene whose aggregate
storage holds zeros and whose single node has the world box `[1, 2]^3`, the
aggregate after `Commit` is `(0, 0, 0)`-`(2, 2, 2)`, not the node's box. -/
theorem Commit_keeps_prior_aggregate :
    (Scene.Commit staleScene).GetBoundingBox = (![0, 0, 0], ![2, 2, 2]) ∧
    (Scene.Commit staleScene).nodes_.map Node.GetWorldBoundingBox =
      [(![1, 1, 1], ![2, 2, 2])] := by
  decide!

/-- C5 as stated fails: with `a` the translation by 1 along x and `b` the scale
by 2, both affine, `MultV(Mult(a, b), 0)` is `(1, 0, 0)` while
`MultV(b, MultV(a, 0))` is `(2, 0, 0)`. -/
theorem Mult_first_argument_first_fails :
    IsAffine transX1 ∧ IsAffine scale2 ∧
    Matrix.MultV (Matrix.Mult transX1 scale2) ![0, 0, 0] = ![1, 0, 0] ∧
    Matrix.MultV scale2 (Matrix.MultV transX1 ![0, 0, 0]) = ![2, 0, 0] := by
  decide!

/-- C5, amended. In exact arithmetic, `Mult` composes transforms with its second
matrix argument applied first under the `MultV` convention: for all affine
`a` and `b` and every point `v`, `MultV(Mult(a, b), v) = MultV(a, MultV(b, v))`. -/
theorem MultV_Mult_second_argument_first (a b : Mat4) (_ha : IsAffine a) (hb : IsAffine b)
    (v : Vec3) :
    Matrix.MultV (Matrix.Mult a b) v = Matrix.MultV a (Matrix.MultV b v) := by
  obtain ⟨h0, h1, h2, h3⟩ := hb
  funext k
  fin_cases k <;>
  · simp only [Matrix.MultV, Mult_apply, (vec3_apply _ _ _).1, (vec3_apply _ _ _).2.1,
      (vec3_apply _ _ _).2.2, h0, h1, h2, h3]
    simp
    ring

/-- Witness for the amended C5: the translation by 1 along x, the scale by 2
and the point `(1, 2, 3)`. -/
theorem MultV_Mult_second_argument_first_witness :
    IsAffine transX1 ∧ IsAffine scale2 ∧
    Matrix.MultV (Matrix.Mult transX1 scale2) ![1, 2, 3] =
      Matrix.MultV transX1 (Matrix.MultV scale2 ![1, 2, 3]) :=
  ⟨by decide!, by decide!,
    MultV_Mult_second_argument_first transX1 scale2 (by decide!) (by decide!) ![1, 2, 3]⟩

/-- C6 (fails on the code). At `shearScale`, whose determinant is 3, the first
`Inverse` yields a matrix of determinant 5/9 and the second yields entry
`[3][3]` equal to -12/5, while `shearScale` has 1 there: the wrong index on
line 171 of `Inverse` corrupts entry `[3][3]` of every result. -/
theorem Inverse_Inverse_shearScale_ne :
    (Matrix.of shearScale).det = 3 ∧
    (Matrix.of (Matrix.Inverse shearScale)).det = 5 / 9 ∧
    Matrix.Inverse (Matrix.Inverse shearScale) 3 3 = -12 / 5 ∧
    shearScale 3 3 = 1 := by
  decide!

/-- C7. `Commit` is idempotent on every scene state: a second `Commit` leaves
the aggregate box and every node exactly as the first one left them. -/
theorem Commit_idempotent (s : Scene) : Scene.Commit (Scene.Commit s) = Scene.Commit s := by
  have hmap : (s.nodes_.map Node.Update).map Node.Update = s.nodes_.map Node.Update := by
    rw [List.map_map]
    exact List.map_congr_left fun n _ => Update_Update n
  simp only [Scene.Commit, hmap,
    foldl_CommitStep_of_encloses _ _ (encloses_foldl_CommitStep _ _)]

/-- C8. For a node over a non-empty BVH whose transform is affine with an
invertible upper-left 3x3 block, the `inv_transpose_xform33_` cached by
`Update` preserves the pairing of normals with directions: for all `nv`, `p`,
`q`, the dot product of `MultV(inv_transpose_xform33, nv)` with
`MultV(xform, p) - MultV(xform, q)` equals the dot product of `nv` with
`p - q`. -/
theorem Update_inv_transpose_xform33_normal (n : Node) (hne : n.bvh_nodes_ ≠ [])
    (haff : IsAffine n.xform_) (hdet : (upper33 n.xform_).det ≠ 0) (nv p q : Vec3) :
    dot (Matrix.MultV (Node.Update n).inv_transpose_xform33_ nv)
        (Matrix.MultV n.xform_ p - Matrix.MultV n.xform_ q) = dot nv (p - q) := by
  rw [det_upper33, ← det4_clearTranslation _ haff] at hdet
  obtain ⟨h0, h1, h2, h3⟩ := haff
  simp only [Node.Update, isEmpty_eq_false_of_ne_nil _ hne, Bool.false_eq_true, if_false,
    Matrix.Copy, dot, Matrix.MultV, Matrix.Transpose, Pi.sub_apply, (vec3_apply _ _ _).1,
    (vec3_apply _ _ _).2.1, (vec3_apply _ _ _).2.2, Matrix.Inverse, InverseDet_eq_det4]
  field_simp
  simp [Matrix.InverseCofactors, det4, setEntry, h0, h1, h2, h3]
  ring

/-- Witness for C8: the node over `unitBvh` under the non-uniform scale with
translation `scaleTranslate`, the normal `(1, 1, 0)` and the points `(1, 2, 3)`
and `(2, 1, 3)`, whose difference is perpendicular to the normal. -/
theorem Update_inv_transpose_xform33_normal_witness :
    (nodeWith scaleTranslate).bvh_nodes_ ≠ [] ∧
    IsAffine (nodeWith scaleTranslate).xform_ ∧
    (upper33 (nodeWith scaleTranslate).xform_).det ≠ 0 ∧
    dot (Matrix.MultV (Node.Update (nodeWith scaleTranslate)).inv_transpose_xform33_ ![1, 1, 0])
        (Matrix.MultV (nodeWith scaleTranslate).xform_ ![1, 2, 3] -
          Matrix.MultV (nodeWith scaleTranslate).xform_ ![2, 1, 3]) =
      dot ![1, 1, 0] (![1, 2, 3] - ![2, 1, 3]) :=
  ⟨List.cons_ne_nil _ _, by decide!, by decide!,
    Update_inv_transpose_xform33_normal (nodeWith scaleTranslate) (List.cons_ne_nil _ _)
      (by decide!) (by decide!) ![1, 1, 0] ![1, 2, 3] ![2, 1, 3]⟩

/-- C9. For a node over a non-empty BVH whose transform is affine with an
invertible upper-left 3x3 block and any translation row, the `inv_xform33_`
cached by `Update` inverts the linear part,
`MultV(inv_xform33, MultV(xform, p) - MultV(xform, q)) = p - q`, and
`MultV(inv_xform33, v)` is the same whatever translation row `t` replaces the
one of `xform`. -/
theorem Update_inv_xform33_linear (n : Node) (hne : n.bvh_nodes_ ≠ [])
    (haff : IsAffine n.xform_) (hdet : (upper33 n.xform_).det ≠ 0) :
    (∀ p q : Vec3, Matrix.MultV (Node.Update n).inv_xform33_
        (Matrix.MultV n.xform_ p - Matrix.MultV n.xform_ q) = p - q) ∧
    (∀ t v : Vec3,
      Matrix.MultV
          (Node.Update { n with xform_ := withTranslation n.xform_ t }).inv_xform33_ v =
        Matrix.MultV (Node.Update n).inv_xform33_ v) := by
  constructor
  · intro p q
    rw [det_upper33, ← det4_clearTranslation _ haff] at hdet
    obtain ⟨h0, h1, h2, h3⟩ := haff
    funext k
    fin_cases k <;>
    · simp only [Node.Update, isEmpty_eq_false_of_ne_nil _ hne, Bool.false_eq_true, if_false,
        Matrix.Copy, Matrix.MultV, Pi.sub_apply, (vec3_apply _ _ _).1,
        (vec3_apply _ _ _).2.1, (vec3_apply _ _ _).2.2, Matrix.Inverse, InverseDet_eq_det4]
      simp
      field_simp
      simp [Matrix.InverseCofactors, det4, setEntry, h0, h1, h2, h3]
      ring
  · intro t v
    simp only [Node.Update, isEmpty_eq_false_of_ne_nil _ hne, Bool.false_eq_true, if_false,
      Matrix.Copy, clear_withTranslation]

/-- Witness for C9: the node over `unitBvh` under `scaleTranslate`, the points
`(1, 2, 3)` and `(0, 1, 0)`, the replacement translation `(9, 8, 7)` and the
vector `(1, 1, 1)`. -/
theorem Update_inv_xform33_linear_witness :
    (nodeWith scaleTranslate).bvh_nodes_ ≠ [] ∧
    IsAffine (nodeWith scaleTranslate).xform_ ∧
    (upper33 (nodeWith scaleTranslate).xform_).det ≠ 0 ∧
    Matrix.MultV (Node.Update (nodeWith scaleTranslate)).inv_xform33_
        (Matrix.MultV (nodeWith scaleTranslate).xform_ ![1, 2, 3] -
          Matrix.MultV (nodeWith scaleTranslate).xform_ ![0, 1, 0]) = ![1, 2, 3] - ![0, 1, 0] ∧
    Matrix.MultV
        (Node.Update { nodeWith scaleTranslate with
          xform_ := withTranslation (nodeWith scaleTranslate).xform_ ![9, 8, 7] }).inv_xform33_
        ![1, 1, 1] =
      Matrix.MultV (Node.Update (nodeWith scaleTranslate)).inv_xform33_ ![1, 1, 1] :=
  ⟨List.cons_ne_nil _ _, by decide!, by decide!,
    (Update_inv_xform33_linear (nodeWith scaleTranslate) (List.cons_ne_nil _ _)
      (by decide!) (by decide!)).1 ![1, 2, 3] ![0, 1, 0],
    (Update_inv_xform33_linear (nodeWith scaleTranslate) (List.cons_ne_nil _ _)
      (by decide!) (by decide!)).2 ![9, 8, 7] ![1, 1, 1]⟩

/-- C10. For a node over a non-empty BVH whose local box has `lbmin <= lbmax` on
each axis and whose transform is the identity, after `Update` the box returned
by `GetWorldBoundingBox` equals the box returned by `GetLocalBoundingBox`. -/
theorem Update_identity_world_eq_local (n : Node) (hne : n.bvh_nodes_ ≠ [])
    (hle : ∀ k, n.lbmin_ k ≤ n.lbmax_ k) (hx : n.xform_ = Matrix.Identity) :
    (Node.Update n).GetWorldBoundingBox = (Node.Update n).GetLocalBoundingBox := by
  have h0 := hle 0
  have h1 := hle 1
  have h2 := hle 2
  simp only [Node.GetWorldBoundingBox, Node.GetLocalBoundingBox, Node.Update,
    isEmpty_eq_false_of_ne_nil _ hne, Bool.false_eq_true, if_false, XformBoundingBox_fst,
    XformBoundingBox_snd, hx, MultV_Identity]
  simp [h0, h1, h2]

/-- Witness for C10: the node over `unitBvh` with the identity transform. -/
theorem Update_identity_world_eq_local_witness :
    (nodeWith Matrix.Identity).bvh_nodes_ ≠ [] ∧
    (∀ k, (nodeWith Matrix.Identity).lbmin_ k ≤ (nodeWith Matrix.Identity).lbmax_ k) ∧
    (nodeWith Matrix.Identity).xform_ = Matrix.Identity ∧
    (Node.Update (nodeWith Matrix.Identity)).GetWorldBoundingBox =
      (Node.Update (nodeWith Matrix.Identity)).GetLocalBoundingBox :=
  ⟨List.cons_ne_nil _ _, by decide!, rfl,
    Update_identity_world_eq_local (nodeWith Matrix.Identity) (List.cons_ne_nil _ _)
      (by decide!) rfl⟩

/-- C11. For a node over a non-empty BVH whose local box has `lbmin <= lbmax` on
each axis and whose transform is the pure translation by `t` (the identity
with row 3 set to `t0, t1, t2, 1`), after `Update` the world box is the local
box offset by `t`: `xbmin = lbmin + t` and `xbmax = lbmax + t`. -/
theorem Update_translation_world_box (n : Node) (hne : n.bvh_nodes_ ≠ [])
    (hle : ∀ k, n.lbmin_ k ≤ n.lbmax_ k) (t : Vec3)
    (hx : n.xform_ = withTranslation Matrix.Identity t) :
    (Node.Update n).xbmin_ = n.lbmin_ + t ∧ (Node.Update n).xbmax_ = n.lbmax_ + t := by
  have h0 := hle 0
  have h1 := hle 1
  have h2 := hle 2
  simp only [Node.Update, isEmpty_eq_false_of_ne_nil _ hne, Bool.false_eq_true, if_false]
  constructor <;> funext k
  · rw [XformBoundingBox_fst]
    simp only [hx, MultV_translation, Pi.add_apply]
    fin_cases k <;> simp [h0, h1, h2]
  · rw [XformBoundingBox_snd]
    simp only [hx, MultV_translation, Pi.add_apply]
    fin_cases k <;> simp [h0, h1, h2]

/-- Witness for C11: the node over `unitBvh` translated by `(5, 6, 7)`. -/
theorem Update_translation_world_box_witness :
    (nodeWith (withTranslation Matrix.Identity ![5, 6, 7])).bvh_nodes_ ≠ [] ∧
    (∀ k, (nodeWith (withTranslation Matrix.Identity ![5, 6, 7])).lbmin_ k ≤
      (nodeWith (withTranslation Matrix.Identity ![5, 6, 7])).lbmax_ k) ∧
    (nodeWith (withTranslation Matrix.Identity ![5, 6, 7])).xform_ =
      withTranslation Matrix.Identity ![5, 6, 7] ∧
    (Node.Update (nodeWith (withTranslation Matrix.Identity ![5, 6, 7]))).xbmin_ =
      (nodeWith (withTranslation Matrix.Identity ![5, 6, 7])).lbmin_ + ![5, 6, 7] ∧
    (Node.Update (nodeWith (withTranslation Matrix.Identity ![5, 6, 7]))).xbmax_ =
      (nodeWith (withTranslation Matrix.Identity ![5, 6, 7])).lbmax_ + ![5, 6, 7] :=
  ⟨List.cons_ne_nil _ _, by decide!, rfl,
    Update_translation_world_box (nodeWith (withTranslation Matrix.Identity ![5, 6, 7]))
      (List.cons_ne_nil _ _) (by decide!) ![5, 6, 7] rfl⟩

/-- C12. For all 4x4 arrays `a`, `b` and all indices `i`, `j`, the result of
`Mult(dst, a, b)` has `dst[i][j]` equal to the sum over `k` of
`a[k][j] * b[i][k]`; as matrices, `dst` is the row-by-column product `b * a`. -/
theorem Mult_entry_eq_sum (a b : Mat4) :
    (∀ i j : Fin 4, Matrix.Mult a b i j = ∑ k : Fin 4, a k j * b i k) ∧
    Matrix.of (Matrix.Mult a b) = Matrix.of b * Matrix.of a := by
  have h : ∀ i j : Fin 4, Matrix.Mult a b i j = ∑ k : Fin 4, a k j * b i k := by
    intro i j
    rw [Mult_apply, Fin.sum_univ_four, zero_add]
  refine ⟨h, ?_⟩
  ext i j
  rw [Matrix.of_apply, h, Matrix.mul_apply]
  exact Finset.sum_congr rfl fun k _ => mul_comm _ _

/-- C13. A node constructed over an empty BVH record array, whatever transform
is then stored in it, is left unchanged in every field by any number `k` of
`Update` calls, and both its local and its world box are still the empty
sentinel `(+tmax, -tmax)`. -/
theorem Update_empty_bvh_keeps_sentinel (tmax : ℚ) (idx : List Nat) (m : Mat4) (k : ℕ) :
    Node.Update^[k] { Node.ctor tmax [] idx with xform_ := m } =
      { Node.ctor tmax [] idx with xform_ := m } ∧
    (Node.Update^[k] { Node.ctor tmax [] idx with xform_ := m }).GetLocalBoundingBox =
      (![tmax, tmax, tmax], ![-tmax, -tmax, -tmax]) ∧
    (Node.Update^[k] { Node.ctor tmax [] idx with xform_ := m }).GetWorldBoundingBox =
      (![tmax, tmax, tmax], ![-tmax, -tmax, -tmax]) := by
  have h : Node.Update^[k] { Node.ctor tmax [] idx with xform_ := m } =
      { Node.ctor tmax [] idx with xform_ := m } :=
    Function.iterate_fixed (Update_of_nil _ rfl) k
  rw [h]
  exact ⟨rfl, rfl, rfl⟩

/-- C14. A newly constructed node has its local box equal to `bmin`, `bmax` of
the first BVH record when there is one and to the empty sentinel
`(+tmax, -tmax)` otherwise; its world box is the empty sentinel in both cases;
`xform_` and `inv_xform_` are the identity; `inv_xform33_` and
`inv_transpose_xform33_` are the identity except that entry `[3][3]` is 0. -/
theorem ctor_initial_state (tmax : ℚ) (r : BVHNode) (rs bvh : List BVHNode)
    (idx : List Nat) :
    (Node.ctor tmax (r :: rs) idx).lbmin_ = r.bmin ∧
    (Node.ctor tmax (r :: rs) idx).lbmax_ = r.bmax ∧
    (Node.ctor tmax [] idx).lbmin_ = ![tmax, tmax, tmax] ∧
    (Node.ctor tmax [] idx).lbmax_ = ![-tmax, -tmax, -tmax] ∧
    (Node.ctor tmax bvh idx).xbmin_ = ![tmax, tmax, tmax] ∧
    (Node.ctor tmax bvh idx).xbmax_ = ![-tmax, -tmax, -tmax] ∧
    (Node.ctor tmax bvh idx).xform_ = Matrix.Identity ∧
    (Node.ctor tmax bvh idx).inv_xform_ = Matrix.Identity ∧
    (∀ i j : Fin 4, (Node.ctor tmax bvh idx).inv_xform33_ i j =
      if i = 3 ∧ j = 3 then 0 else Matrix.Identity i j) ∧
    (∀ i j : Fin 4, (Node.ctor tmax bvh idx).inv_transpose_xform33_ i j =
      if i = 3 ∧ j = 3 then 0 else Matrix.Identity i j) := by
  refine ⟨?_, ?_, rfl, rfl, rfl, rfl, rfl, rfl, fun _ _ => rfl, fun _ _ => rfl⟩
  · funext k
    fin_cases k <;> rfl
  · funext k
    fin_cases k <;> rfl

/-- C15 (fails on the code). On a scene without nodes `Commit` runs neither loop
body and leaves `bmin_`, `bmax_` as they were, and nothing initialises them:
with zeros in that storage `GetBoundingBox` returns `(0, 0, 0)`-`(0, 0, 0)`
after `Commit`, not the empty sentinel. -/
theorem Commit_empty_scene_keeps_prior_aggregate :
    emptyScene.nodes_ = [] ∧
    (Scene.Commit emptyScene).nodes_ = [] ∧
    (Scene.Commit emptyScene).GetBoundingBox = (![0, 0, 0], ![0, 0, 0]) :=
  ⟨rfl, rfl, by decide!⟩

/-- C16. For every scene and node, `AddNode` makes the node sequence the previous
sequence followed by the node (so the length grows by one and the earlier
nodes keep their places) and leaves the aggregate box unchanged. -/
theorem AddNode_appends (s : Scene) (n : Node) :
    (Scene.AddNode s n).nodes_ = s.nodes_ ++ [n] ∧
    (Scene.AddNode s n).nodes_.length = s.nodes_.length + 1 ∧
    (Scene.AddNode s n).bmin_ = s.bmin_ ∧ (Scene.AddNode s n).bmax_ = s.bmax_ ∧
    (Scene.AddNode s n).GetBoundingBox = s.GetBoundingBox := by
  refine ⟨rfl, ?_, rfl, rfl, rfl⟩
  simp [Scene.AddNode]

/-- C17. The matrix produced by `Identity` is neutral for `Mult` on both sides
and for `MultV`: `Mult(dst, I, a)` and `Mult(dst, a, I)` both give `a`, and
`MultV(I, v) = v`. -/
theorem Identity_neutral (a : Mat4) (v : Vec3) :
    Matrix.Mult Matrix.Identity a = a ∧ Matrix.Mult a Matrix.Identity = a ∧
    Matrix.MultV Matrix.Identity v = v := by
  refine ⟨?_, ?_, ?_⟩
  · funext i j
    rw [Mult_apply]
    fin_cases j <;> simp [Identity_apply]
  · funext i j
    rw [Mult_apply]
    fin_cases i <;> simp [Identity_apply]
  · funext k
    exact MultV_Identity v k

/-- C18. For every 4x4 array, `Transpose` yields the transpose of the original
values (new `m[j][i]` is old `m[i][j]`), and applying it twice restores the
array. -/
theorem Transpose_swaps_and_involutive (m : Mat4) :
    (∀ i j : Fin 4, Matrix.Transpose m j i = m i j) ∧
    Matrix.Transpose (Matrix.Transpose m) = m :=
  ⟨fun _ _ => rfl, rfl⟩

/-- C19. After `Commit` the node sequence has the same length as before, its
`i`-th node is `Update` of the `i`-th node before the call, and `Update`
changes neither the transform nor the local box of a node. -/
theorem Commit_updates_each_node (s : Scene) :
    (Scene.Commit s).nodes_.length = s.nodes_.length ∧
    (∀ i : ℕ, (Scene.Commit s).nodes_[i]? = (s.nodes_[i]?).map Node.Update) ∧
    (∀ n : Node, (Node.Update n).xform_ = n.xform_ ∧ (Node.Update n).lbmin_ = n.lbmin_ ∧
      (Node.Update n).lbmax_ = n.lbmax_) := by
  refine ⟨?_, ?_, ?_⟩
  · simp [Scene.Commit]
  · intro i
    simp [Scene.Commit]
  · intro n
    cases h : n.bvh_nodes_.isEmpty <;> simp [Node.Update, h]

/-- C20. The box computed by `XformBoundingBox` bounds the transformed local
box: for every matrix `m`, every box with `bmin <= bmax` and every point `p`
of the box, each component of `MultV(m, p)` lies between the corresponding
components of `xbmin` and `xbmax`, and each of these bounds is the component
of the image of some corner. -/
theorem XformBoundingBox_bounds_box (m : Mat4) (bmin bmax p : Vec3)
    (_hbox : ∀ i, bmin i ≤ bmax i) (hp : ∀ i, bmin i ≤ p i ∧ p i ≤ bmax i) (k : Fin 3) :
    (XformBoundingBox bmin bmax m).1 k ≤ Matrix.MultV m p k ∧
    Matrix.MultV m p k ≤ (XformBoundingBox bmin bmax m).2 k ∧
    (∃ c : Fin 3 → Bool,
      (XformBoundingBox bmin bmax m).1 k = Matrix.MultV m (boxCorner bmin bmax c) k) ∧
    (∃ c : Fin 3 → Bool,
      (XformBoundingBox bmin bmax m).2 k = Matrix.MultV m (boxCorner bmin bmax c) k) := by
  obtain ⟨⟨⟨cl, hcl⟩, hlow⟩, ⟨⟨ch, hch⟩, hhigh⟩⟩ := XformBoundingBox_extrema bmin bmax m k
  refine ⟨?_, ?_, ⟨cl, hcl.symm⟩, ⟨ch, hch.symm⟩⟩
  · refine le_trans (hlow ⟨fun i => decide (m i.castSucc k.castSucc < 0), rfl⟩) ?_
    simp only [MultV_apply, boxCorner]
    have e0 := mul_lowCorner_le (m 0 k.castSucc) _ _ _ (hp 0).1 (hp 0).2
    have e1 := mul_lowCorner_le (m 1 k.castSucc) _ _ _ (hp 1).1 (hp 1).2
    have e2 := mul_lowCorner_le (m 2 k.castSucc) _ _ _ (hp 2).1 (hp 2).2
    exact add_le_add (add_le_add (add_le_add e0 e1) e2) le_rfl
  · refine le_trans ?_ (hhigh ⟨fun i => decide (0 < m i.castSucc k.castSucc), rfl⟩)
    simp only [MultV_apply, boxCorner]
    have e0 := le_mul_highCorner (m 0 k.castSucc) _ _ _ (hp 0).1 (hp 0).2
    have e1 := le_mul_highCorner (m 1 k.castSucc) _ _ _ (hp 1).1 (hp 1).2
    have e2 := le_mul_highCorner (m 2 k.castSucc) _ _ _ (hp 2).1 (hp 2).2
    exact add_le_add (add_le_add (add_le_add e0 e1) e2) le_rfl

/-- Witness for C20: the box `[0, 1] x [0, 2] x [0, 3]` under the rotation by 90
degrees about z, the point `(1/2, 1, 1)` and the x axis. -/
theorem XformBoundingBox_bounds_box_witness :
    (∀ i, (![0, 0, 0] : Vec3) i ≤ (![1, 2, 3] : Vec3) i) ∧
    (∀ i, (![0, 0, 0] : Vec3) i ≤ (![1 / 2, 1, 1] : Vec3) i ∧
      (![1 / 2, 1, 1] : Vec3) i ≤ (![1, 2, 3] : Vec3) i) ∧
    (XformBoundingBox ![0, 0, 0] ![1, 2, 3] rotZ90).1 0 ≤
      Matrix.MultV rotZ90 ![1 / 2, 1, 1] 0 ∧
    Matrix.MultV rotZ90 ![1 / 2, 1, 1] 0 ≤
      (XformBoundingBox ![0, 0, 0] ![1, 2, 3] rotZ90).2 0 ∧
    (∃ c : Fin 3 → Bool, (XformBoundingBox ![0, 0, 0] ![1, 2, 3] rotZ90).1 0 =
      Matrix.MultV rotZ90 (boxCorner ![0, 0, 0] ![1, 2, 3] c) 0) ∧
    (∃ c : Fin 3 → Bool, (XformBoundingBox ![0, 0, 0] ![1, 2, 3] rotZ90).2 0 =
      Matrix.MultV rotZ90 (boxCorner ![0, 0, 0] ![1, 2, 3] c) 0) :=
  ⟨by decide!, by decide!,
    XformBoundingBox_bounds_box rotZ90 ![0, 0, 0] ![1, 2, 3] ![1 / 2, 1, 1]
      (by decide!) (by decide!) 0⟩

/-- C21. For every 4x4 array `m` with non-zero determinant, the scalar that
`Inverse` divides by is the determinant of `m`, and every entry of
`Inverse(m)` other than `[3][3]` is the entry of the inverse matrix, that is
the adjugate entry (cofactor of the transposed position) over the
determinant. -/
theorem Inverse_entries_true_inverse (m : Mat4) (hdet : (Matrix.of m).det ≠ 0) :
    Matrix.InverseDet m = (Matrix.of m).det ∧
    ∀ i j : Fin 4, ¬(i = 3 ∧ j = 3) →
      Matrix.Inverse m i j = (Matrix.of m)⁻¹ i j ∧
      Matrix.Inverse m i j = (Matrix.of m).adjugate i j / (Matrix.of m).det := by
  have hd4 : det4 m ≠ 0 := by rwa [det_of_eq_det4] at hdet
  refine ⟨by rw [InverseDet_eq_det4, det_of_eq_det4], fun i j hij => ?_⟩
  have h1 : Matrix.Inverse m i j = (Matrix.of m)⁻¹ i j := by
    rw [of_inv_eq_repairedInverse m hd4, Matrix.of_apply, repairedInverse, if_neg hij]
  refine ⟨h1, ?_⟩
  rw [h1, Matrix.inv_def, Ring.inverse_eq_inv', Matrix.smul_apply, smul_eq_mul, div_eq_inv_mul]

/-- Witness for C21: the matrix `shearScale`, of determinant 3, at entry
`[0][1]`. -/
theorem Inverse_entries_true_inverse_witness :
    (Matrix.of shearScale).det ≠ 0 ∧ ¬((0 : Fin 4) = 3 ∧ (1 : Fin 4) = 3) ∧
    Matrix.InverseDet shearScale = (Matrix.of shearScale).det ∧
    (Matrix.Inverse shearScale 0 1 = (Matrix.of shearScale)⁻¹ 0 1 ∧
      Matrix.Inverse shearScale 0 1 =
        (Matrix.of shearScale).adjugate 0 1 / (Matrix.of shearScale).det) :=
  ⟨by decide!, by decide,
    (Inverse_entries_true_inverse shearScale (by decide!)).1,
    (Inverse_entries_true_inverse shearScale (by decide!)).2 0 1 (by decide)⟩

/-- C22. `Commit` only grows the aggregate box: on every axis the aggregate
minimum after `Commit` is the least of the aggregate minimum before the call
and the nodes' updated world minima, dually for the maximum, so the new
minimum is at most the old one and the new maximum at least the old one. -/
theorem Commit_aggregate_grows (s : Scene) (k : Fin 3) :
    IsLeast (insert (s.bmin_ k) {x | ∃ n ∈ s.nodes_, x = (Node.Update n).xbmin_ k})
      ((Scene.Commit s).bmin_ k) ∧
    IsGreatest (insert (s.bmax_ k) {x | ∃ n ∈ s.nodes_, x = (Node.Update n).xbmax_ k})
      ((Scene.Commit s).bmax_ k) ∧
    (Scene.Commit s).bmin_ k ≤ s.bmin_ k ∧ s.bmax_ k ≤ (Scene.Commit s).bmax_ k := by
  have hmono := foldl_CommitStep_mono (s.nodes_.map Node.Update) (s.bmin_, s.bmax_) k
  have henc := encloses_foldl_CommitStep (s.nodes_.map Node.Update) (s.bmin_, s.bmax_)
  have hmin := foldl_CommitStep_fst_mem (s.nodes_.map Node.Update) (s.bmin_, s.bmax_) k
  have hmax := foldl_CommitStep_snd_mem (s.nodes_.map Node.Update) (s.bmin_, s.bmax_) k
  refine ⟨⟨?_, ?_⟩, ⟨?_, ?_⟩, hmono.1, hmono.2⟩
  · rcases hmin with h | ⟨x, hx, hxe⟩
    · exact Or.inl h
    · obtain ⟨n, hn, rfl⟩ := List.mem_map.mp hx
      exact Or.inr ⟨n, hn, hxe⟩
  · rintro y (rfl | ⟨n, hn, rfl⟩)
    · exact hmono.1
    · exact (henc _ (List.mem_map_of_mem _ hn) k).1
  · rcases hmax with h | ⟨x, hx, hxe⟩
    · exact Or.inl h
    · obtain ⟨n, hn, rfl⟩ := List.mem_map.mp hx
      exact Or.inr ⟨n, hn, hxe⟩
  · rintro y (rfl | ⟨n, hn, rfl⟩)
    · exact hmono.2
    · exact (henc _ (List.mem_map_of_mem _ hn) k).2

/-- C23 as stated fails: a node constructed over no BVH record and a node
constructed over a record equal to the sentinel box have the same transform
and the same local box, yet after `Update` the first still has the world
minimum `(1000, 1000, 1000)` and entry `[3][3]` of `inv_xform33_` equal to 0,
while the second has `(-1000, -1000, -1000)` and 1. -/
theorem Update_outputs_depend_on_bvh :
    (Node.ctor 1000 [] []).xform_ = (Node.ctor 1000 sentinelBvh [0]).xform_ ∧
    (Node.ctor 1000 [] []).lbmin_ = (Node.ctor 1000 sentinelBvh [0]).lbmin_ ∧
    (Node.ctor 1000 [] []).lbmax_ = (Node.ctor 1000 sentinelBvh [0]).lbmax_ ∧
    (Node.Update (Node.ctor 1000 [] [])).xbmin_ = ![1000, 1000, 1000] ∧
    (Node.Update (Node.ctor 1000 sentinelBvh [0])).xbmin_ = ![-1000, -1000, -1000] ∧
    (Node.Update (Node.ctor 1000 [] [])).inv_xform33_ 3 3 = 0 ∧
    (Node.Update (Node.ctor 1000 sentinelBvh [0])).inv_xform33_ 3 3 = 1 := by
  decide!

/-- C23, amended. `Update` never modifies the transform or the local box; for
nodes over a non-empty BVH its outputs (world box, `inv_xform_`,
`inv_xform33_`, `inv_transpose_xform33_`) depend on the transform and the
local box alone, and over an empty BVH it changes nothing; hence for every
node state `Update` applied twice equals `Update` applied once. -/
theorem Update_frame_and_idempotent (n n1 n2 : Node) (h1 : n1.bvh_nodes_ ≠ [])
    (h2 : n2.bvh_nodes_ ≠ [])
    (hx : n1.xform_ = n2.xform_) (hmin : n1.lbmin_ = n2.lbmin_)
    (hmax : n1.lbmax_ = n2.lbmax_) :
    ((Node.Update n).xform_ = n.xform_ ∧ (Node.Update n).lbmin_ = n.lbmin_ ∧
      (Node.Update n).lbmax_ = n.lbmax_) ∧
    ((Node.Update n1).xbmin_ = (Node.Update n2).xbmin_ ∧
      (Node.Update n1).xbmax_ = (Node.Update n2).xbmax_ ∧
      (Node.Update n1).inv_xform_ = (Node.Update n2).inv_xform_ ∧
      (Node.Update n1).inv_xform33_ = (Node.Update n2).inv_xform33_ ∧
      (Node.Update n1).inv_transpose_xform33_ = (Node.Update n2).inv_transpose_xform33_) ∧
    (n.bvh_nodes_ = [] → Node.Update n = n) ∧
    Node.Update (Node.Update n) = Node.Update n := by
  refine ⟨?_, ?_, Update_of_nil n, Update_Update n⟩
  · cases h : n.bvh_nodes_.isEmpty <;> simp [Node.Update, h]
  · simp only [Node.Update, isEmpty_eq_false_of_ne_nil _ h1, isEmpty_eq_false_of_ne_nil _ h2,
      Bool.false_eq_true, if_false, hx, hmin, hmax]
    refine ⟨?_, ?_, ?_, ?_, ?_⟩ <;> first | rfl | trivial

/-- Witness for the amended C23: a freshly constructed node over no BVH record
as `n`, and `nodeWith rotZ90` and `staleNode` as the two nodes over non-empty
BVHs that agree on transform and local box. -/
theorem Update_frame_and_idempotent_witness :
    (nodeWith rotZ90).bvh_nodes_ ≠ [] ∧ staleNode.bvh_nodes_ ≠ [] ∧
    (nodeWith rotZ90).xform_ = staleNode.xform_ ∧
    (nodeWith rotZ90).lbmin_ = staleNode.lbmin_ ∧
    (nodeWith rotZ90).lbmax_ = staleNode.lbmax_ ∧
    (Node.ctor 1000 [] []).bvh_nodes_ = [] ∧
    (Node.Update (nodeWith rotZ90)).xbmin_ = (Node.Update staleNode).xbmin_ ∧
    Node.Update (Node.ctor 1000 [] []) = Node.ctor 1000 [] [] ∧
    Node.Update (Node.Update (Node.ctor 1000 [] [])) = Node.Update (Node.ctor 1000 [] []) :=
  ⟨List.cons_ne_nil _ _, List.cons_ne_nil _ _, rfl, rfl, rfl, rfl,
    (Update_frame_and_idempotent (Node.ctor 1000 [] []) (nodeWith rotZ90) staleNode
      (List.cons_ne_nil _ _) (List.cons_ne_nil _ _) rfl rfl rfl).2.1.1,
    (Update_frame_and_idempotent (Node.ctor 1000 [] []) (nodeWith rotZ90) staleNode
      (List.cons_ne_nil _ _) (List.cons_ne_nil _ _) rfl rfl rfl).2.2.1 rfl,
    (Update_frame_and_idempotent (Node.ctor 1000 [] []) (nodeWith rotZ90) staleNode
      (List.cons_ne_nil _ _) (List.cons_ne_nil _ _) rfl rfl rfl).2.2.2⟩

/-- C24 as stated fails on `double`: for the node `nanNode`, all of whose
numbers are finite, the corner `(2^600, 2^600, 0)` has the x image
`inf + -inf = NaN`, which the folds of `XformBoundingBox` store last, so
`xbmin[0]` and `xbmax[0]` are both NaN and `xbmin[0] <= xbmax[0]` is false. -/
theorem Update_world_box_double_nan :
    nanNode.bvh_nodes_ ≠ [] ∧
    (Tmpl.Node.Update nanNode).xbmin_ 0 = Dbl.nan ∧
    (Tmpl.Node.Update nanNode).xbmax_ 0 = Dbl.nan ∧
    ¬ ((Tmpl.Node.Update nanNode).xbmin_ 0 ≤ (Tmpl.Node.Update nanNode).xbmax_ 0) := by
  refine ⟨List.cons_ne_nil _ _, ?_, ?_, ?_⟩ <;> decide!

/-- C24, amended. In exact arithmetic, for every node over a non-empty BVH,
whatever the transform and the local box (an inverted box included), the
world box after `Update` has `xbmin[i] <= xbmax[i]` on each axis. -/
theorem Update_world_box_well_formed (n : Node) (hne : n.bvh_nodes_ ≠ []) (i : Fin 3) :
    (Node.Update n).xbmin_ i ≤ (Node.Update n).xbmax_ i := by
  simp only [Node.Update, isEmpty_eq_false_of_ne_nil _ hne, Bool.false_eq_true, if_false]
  obtain ⟨hleast, hgreatest⟩ := XformBoundingBox_extrema n.lbmin_ n.lbmax_ n.xform_ i
  exact hleast.2 hgreatest.1

/-- Witness for the amended C24: the node over `invertedBvh`, whose local box has
`lbmin = 1 > 0 = lbmax` on every axis, rotated by 90 degrees about z, on the
x axis. -/
theorem Update_world_box_well_formed_witness :
    invertedNode.bvh_nodes_ ≠ [] ∧ invertedNode.lbmax_ 0 < invertedNode.lbmin_ 0 ∧
    (Node.Update invertedNode).xbmin_ 0 ≤ (Node.Update invertedNode).xbmax_ 0 :=
  ⟨List.cons_ne_nil _ _, by decide!,
    Update_world_box_well_formed invertedNode (List.cons_ne_nil _ _) 0⟩

end nanosg
